import Mathlib

/-!
A shallow embedding of the DumbJared scrape-to-database reconciliation
engine (backend/scraper/services/scraper_service.py), the autoscrape
lifecycle tasks (backend/scraper/tasks.py), the scheduling helpers
(backend/scraper/utils/sync_tasks.py), the scraped record types
(backend/scraper/types.py) and the relevant parts of the relational
schema (backend/api/models.py).

The relational store is modelled as lists of rows; dates are ordinal day
numbers (weekday = day mod 7, 0 = Monday); timestamps are naturals.
Bulk inserts with `ignore_conflicts=True` are modelled by `bulkIgnore`,
which skips a pending row exactly when it violates a uniqueness
constraint against the rows already present.  A raised Python exception
is an `Except.error`; `transaction.atomic` rollback is modelled by
`run_push`, which discards the candidate state on error.
-/

/-- Generic monadic map over a list in the `Except String` monad. -/
def mapME {α β : Type} (f : α → Except String β) : List α → Except String (List β)
  | [] => .ok []
  | a :: l => do
      let b ← f a
      let bs ← mapME f l
      pure (b :: bs)

/-- Generic monadic filter over a list in the `Except String` monad. -/
def filterME {α : Type} (p : α → Except String Bool) : List α → Except String (List α)
  | [] => .ok []
  | a :: l => do
      let b ← p a
      let rest ← filterME p l
      pure (if b then a :: rest else rest)

/-- Generic monadic left fold over a list in the `Except String` monad. -/
def foldlME {α β : Type} (f : β → α → Except String β) : β → List α → Except String β
  | b, [] => .ok b
  | b, a :: l => do
      let b2 ← f b a
      foldlME f b2 l

/-- Insertion-ordered dictionary, mirroring a Python `dict`. -/
abbrev Dict (κ ν : Type) := List (κ × ν)

/-- Look a key up in a dictionary (keys are unique by construction). -/
def dget {κ ν : Type} [DecidableEq κ] : Dict κ ν → κ → Option ν
  | [], _ => none
  | (k2, v) :: rest, k => if k2 = k then some v else dget rest k

/-- Set a key, keeping its original position when it is already bound
(Python dict assignment semantics). -/
def dinsert {κ ν : Type} [DecidableEq κ] : Dict κ ν → κ → ν → Dict κ ν
  | [], k, v => [(k, v)]
  | (k2, v2) :: rest, k, v =>
      if k2 = k then (k2, v) :: rest else (k2, v2) :: dinsert rest k v

/-- Python subscript `d[k]`: raises `KeyError` when the key is absent. -/
def dgetE {κ ν : Type} [DecidableEq κ] (d : Dict κ ν) (k : κ) : Except String ν :=
  match dget d k with
  | some v => .ok v
  | none => .error "KeyError"

/-- Python `d1 | d2`: right operand overwrites, new keys appended. -/
def dunion {κ ν : Type} [DecidableEq κ] (d1 d2 : Dict κ ν) : Dict κ ν :=
  d2.foldl (fun acc kv => dinsert acc kv.1 kv.2) d1

/-- Deduplicate keeping the first occurrence (a deterministic model of a
Python set comprehension). -/
def dedupList {α : Type} [DecidableEq α] (l : List α) : List α :=
  l.foldl (fun acc a => if a ∈ acc then acc else acc ++ [a]) []

/-- Next autoincrement primary key for a table. -/
def freshPk (pks : List Nat) : Nat :=
  pks.foldl (fun m p => max m p) 0 + 1

/-- Bulk insert with `ignore_conflicts=True`: each pending value is
skipped when `keyMatch` says it conflicts with a row already in the
table (including rows inserted earlier in the same batch); otherwise it
is materialised by `mk` with a fresh primary key and appended. -/
def bulkIgnore {ν ρ : Type} (keyMatch : ν → ρ → Bool) (mk : Nat → ν → ρ)
    (pkOf : ρ → Nat) : List ρ → List ν → List ρ
  | t, [] => t
  | t, n :: ns =>
      if t.any (keyMatch n) then bulkIgnore keyMatch mk pkOf t ns
      else bulkIgnore keyMatch mk pkOf (t ++ [mk (freshPk (t.map pkOf)) n]) ns

/-- Local time of day (seconds are always zero in the scraped data). -/
structure TimeOfDay where
  hour : Nat
  minute : Nat
  deriving Repr, DecidableEq

/-- Weekday of an ordinal date, 0 = Monday .. 6 = Sunday. -/
def weekday (d : Nat) : Nat := d % 7

/-! ## Scrape record types (scraper/types.py) -/

/-- `GameData` record: one official recurring game at the venue. -/
structure GameData where
  type : String
  day : Nat
  time : TimeOfDay
  deriving Repr, DecidableEq

/-- `GameData.__post_init__` validation. -/
def GameData.valid (g : GameData) : Prop := g.day ≤ 6

/-- `VenueData` record. -/
structure VenueData where
  name : String
  games : List GameData
  deriving Repr, DecidableEq

/-- `TeamData` record: one scraped team appearance. -/
structure TeamData where
  team_id : Option Nat
  name : String
  score : Int
  deriving Repr, DecidableEq

/-- `TeamData.__post_init__` validation. -/
def TeamData.valid (t : TeamData) : Prop := -1 ≤ t.score ∧ t.score ≤ 112

/-- `EventData` record: one scraped event recap. -/
structure EventData where
  date : Nat
  game_type : String
  quizmaster : String
  description : Option String
  teams : List TeamData
  deriving Repr, DecidableEq

/-- `PageData` record: everything extracted from one venue page set. -/
structure PageData where
  venue_data : VenueData
  event_data : List EventData
  deriving Repr, DecidableEq

/-! ## Relational rows (api/models.py) -/

/-- A `Venue` row. -/
structure VenueRow where
  pk : Nat
  name : String
  url : String
  lastScrapedAt : Nat
  deriving Repr, DecidableEq

/-- A `GameType` row (name globally unique). -/
structure GameTypeRow where
  pk : Nat
  name : String
  deriving Repr, DecidableEq

/-- A `Game` row; `day`/`time` both null mark a custom game. -/
structure GameRow where
  pk : Nat
  gameTypeId : Nat
  day : Option Nat
  time : Option TimeOfDay
  venueId : Nat
  deriving Repr, DecidableEq

/-- A `Quizmaster` row (name globally unique). -/
structure QuizmasterRow where
  pk : Nat
  name : String
  deriving Repr, DecidableEq

/-- An `Event` row. `quizmasterId` is carried as an option because the
placeholder workflow stores events whose quizmaster is still null, even
though the declared schema marks the field required (see
`event_row_meets_required_quizmaster`). -/
structure EventRow where
  pk : Nat
  gameId : Nat
  date : Nat
  endDatetime : Option Nat
  description : Option String
  quizmasterId : Option Nat
  themeId : Option Nat
  deriving Repr, DecidableEq

/-- The `Event` model declares `quizmaster` a required (non-nullable)
foreign key: a row meets that declaration exactly when the field is set. -/
def event_row_meets_required_quizmaster (r : EventRow) : Bool :=
  decide (r.quizmasterId ≠ none)

/-- A `Team` row: official teams carry an external `team_id`, guests null. -/
structure TeamRow where
  pk : Nat
  teamId : Option Nat
  deriving Repr, DecidableEq

/-- A `TeamName` row. -/
structure TeamNameRow where
  pk : Nat
  name : String
  teamId : Nat
  guest : Bool
  deriving Repr, DecidableEq

/-- A `TeamEventParticipation` row; `score` is null while pending. -/
structure TEPRow where
  pk : Nat
  teamId : Nat
  teamNameId : Nat
  eventId : Nat
  score : Option Int
  deriving Repr, DecidableEq

/-- A `django_celery_beat` crontab schedule value. -/
structure CrontabEntry where
  minute : String
  hour : String
  dayOfWeek : String
  dayOfMonth : String
  monthOfYear : String
  deriving Repr, DecidableEq

/-- The deserialised `kwargs` payload of a periodic task. -/
structure TaskArgs where
  game_pk : Nat
  url : Option String
  task_name : Option String
  deriving Repr, DecidableEq

/-- A `PeriodicTask` row (names are unique). -/
structure PeriodicTaskRow where
  name : String
  task : String
  crontab : CrontabEntry
  kwargs : TaskArgs
  enabled : Bool
  deriving Repr, DecidableEq

/-- The persistent store. -/
structure DBState where
  venues : List VenueRow
  gameTypes : List GameTypeRow
  games : List GameRow
  quizmasters : List QuizmasterRow
  events : List EventRow
  teams : List TeamRow
  teamNames : List TeamNameRow
  teps : List TEPRow
  tasks : List PeriodicTaskRow
  deriving Repr, DecidableEq

/-- Primary keys of the eight entity tables the reconciliation engine
writes, used to phrase "the call inserted zero new rows". -/
def table_pks (st : DBState) : List (List Nat) :=
  [st.venues.map (·.pk), st.gameTypes.map (·.pk), st.games.map (·.pk),
   st.quizmasters.map (·.pk), st.events.map (·.pk), st.teams.map (·.pk),
   st.teamNames.map (·.pk), st.teps.map (·.pk)]

/-! ## Scheduling window calculator (scraper/utils/sync_tasks.py) -/

/-- `_generate_crontab_hours`: map a game start time to the hour range of
the recurring scrape window, refusing times at or after 21:30. -/
def _generate_crontab_hours (game_time : TimeOfDay) : Except String String :=
  if game_time.hour > 21 ∨ (game_time.hour = 21 ∧ game_time.minute ≥ 30) then
    .error "NotImplementedError: Games must start before 9:30 PM."
  else if game_time.minute < 30 then
    .ok (toString (game_time.hour + 1) ++ "-" ++ toString (game_time.hour + 2))
  else
    .ok (toString (game_time.hour + 1) ++ "-" ++ toString (game_time.hour + 3))

/-- `calendar.day_name` indexed by weekday (0 = Monday). -/
def day_name_of (d : Nat) : String :=
  match d with
  | 0 => "Monday"
  | 1 => "Tuesday"
  | 2 => "Wednesday"
  | 3 => "Thursday"
  | 4 => "Friday"
  | 5 => "Saturday"
  | _ => "Sunday"

/-- Two-digit zero-padded rendering used by `time.__str__`. -/
def two_digit (n : Nat) : String :=
  if n < 10 then "0" ++ toString n else toString n

/-- Python `str(time)` for a seconds-free time of day. -/
def time_str (t : TimeOfDay) : String :=
  two_digit t.hour ++ ":" ++ two_digit t.minute ++ ":00"

/-- `Game.__str__`, joining the venue and game-type names from the store. -/
def game_str (venues : List VenueRow) (gameTypes : List GameTypeRow) (g : GameRow) : String :=
  let vname := ((venues.find? (fun v => decide (v.pk = g.venueId))).map (·.name)).getD ""
  let tname := ((gameTypes.find? (fun t => decide (t.pk = g.gameTypeId))).map (·.name)).getD ""
  let base := vname ++ " | " ++ tname
  match g.day, g.time with
  | some d, some t => base ++ ", " ++ day_name_of d ++ "s at " ++ time_str t
  | _, _ => base

/-- `PeriodicTask.objects.get_or_create` looking up by all supplied
fields; creating a second task under an existing name violates the
unique name constraint. -/
def get_or_create_task (tasks : List PeriodicTaskRow) (name task : String)
    (crontab : CrontabEntry) (kwargs : TaskArgs) : Except String (List PeriodicTaskRow) :=
  if tasks.any (fun r => decide (r.name = name ∧ r.task = task ∧ r.crontab = crontab ∧ r.kwargs = kwargs)) then
    .ok tasks
  else if tasks.any (fun r => decide (r.name = name)) then
    .error "IntegrityError: duplicate periodic task name"
  else
    .ok (tasks ++ [{ name := name, task := task, crontab := crontab, kwargs := kwargs, enabled := true }])

/-- `sync_tasks.sync`: register the placeholder, auto-scrape and
re-enable periodic tasks for each official game. -/
def sync_tasks_sync (venues : List VenueRow) (gameTypes : List GameTypeRow)
    (tasks : List PeriodicTaskRow) (games : List GameRow) : Except String (List PeriodicTaskRow) :=
  foldlME (fun acc g =>
    match g.day, g.time with
    | some d, some t => do
        let unique_name := game_str venues gameTypes g ++ " - Auto scrape"
        let url := ((venues.find? (fun v => decide (v.pk = g.venueId))).map (·.url)).getD ""
        let gen_sched : CrontabEntry :=
          { minute := toString t.minute, hour := toString ((t.hour : Int) - 1),
            dayOfWeek := toString ((d + 1) % 7), dayOfMonth := "*", monthOfYear := "*" }
        let hours ← _generate_crontab_hours t
        let scrape_sched : CrontabEntry :=
          { minute := "*/2", hour := hours,
            dayOfWeek := toString ((d + 1) % 7), dayOfMonth := "*", monthOfYear := "*" }
        let reenable_sched : CrontabEntry :=
          { minute := "0", hour := "0",
            dayOfWeek := toString ((d + 2) % 7), dayOfMonth := "*", monthOfYear := "*" }
        let acc ← get_or_create_task acc (game_str venues gameTypes g ++ " - Generate placeholder event")
          "scraper.tasks.generate_placeholder_event" gen_sched
          { game_pk := g.pk, url := none, task_name := none }
        let acc ← get_or_create_task acc unique_name
          "scraper.tasks.auto_scrape" scrape_sched
          { game_pk := g.pk, url := some url, task_name := some unique_name }
        let acc ← get_or_create_task acc (game_str venues gameTypes g ++ " - Re-enable scraping")
          "scraper.tasks.reenable_scraping" reenable_sched
          { game_pk := g.pk, url := none, task_name := some unique_name }
        pure acc
    | _, _ => .error "ValueError: Game must have both day and time set to sync.")
    tasks games

/-! ## Reconciliation engine steps (scraper/services/scraper_service.py) -/

/-- `ScraperService._create_or_update_venue`: find-or-create the venue by
URL, update its name when the scraped name differs, and always refresh
`last_scraped_at`.  Returns (table, venue pk). -/
def _create_or_update_venue (venues : List VenueRow) (source_url venue_name : String)
    (now : Nat) : List VenueRow × Nat :=
  match venues.find? (fun v => decide (v.url = source_url)) with
  | some v =>
      let vs := if v.name = venue_name then venues
                else venues.map (fun w => if w.pk = v.pk then { w with name := venue_name } else w)
      let vs := vs.map (fun w => if w.pk = v.pk then { w with lastScrapedAt := now } else w)
      (vs, v.pk)
  | none =>
      let pk := freshPk (venues.map (·.pk))
      (venues ++ [{ pk := pk, name := venue_name, url := source_url, lastScrapedAt := now }], pk)

/-- A pending `GameType` row is skipped when the unique name exists. -/
def game_type_key (n : String) (r : GameTypeRow) : Bool := decide (r.name = n)

/-- Insert game-type names, ignoring conflicts. -/
def insert_game_types (t : List GameTypeRow) (names : List String) : List GameTypeRow :=
  bulkIgnore game_type_key (fun p n => { pk := p, name := n }) (·.pk) t names

/-- `ScraperService._process_game_types`: union the official and scraped
game-type names, bulk-insert ignoring conflicts, re-read to a name to pk
lookup. -/
def _process_game_types (gameTypes : List GameTypeRow) (data : PageData) :
    List GameTypeRow × Dict String Nat :=
  let official := dedupList (data.venue_data.games.map (·.type))
  let custom := dedupList (data.event_data.map (·.game_type))
  let all_names := dedupList (official ++ custom)
  let t := insert_game_types gameTypes all_names
  let lookup := t.foldl (fun d r => if r.name ∈ all_names then dinsert d r.name r.pk else d) []
  (t, lookup)

/-- A pending official `Game` row, before pk assignment. -/
structure GameNew where
  game_type_id : Nat
  day : Option Nat
  time : Option TimeOfDay
  deriving Repr, DecidableEq

/-- Uniqueness for official games: (type, day, time, venue) with day set. -/
def official_game_key (venue_pk : Nat) (n : GameNew) (r : GameRow) : Bool :=
  decide (r.gameTypeId = n.game_type_id ∧ r.day = n.day ∧ r.time = n.time ∧ r.venueId = venue_pk)

/-- Uniqueness for custom games: (type, venue) among rows with day null. -/
def custom_game_key (venue_pk : Nat) (n : Nat) (r : GameRow) : Bool :=
  decide (r.gameTypeId = n ∧ r.day = none ∧ r.venueId = venue_pk)

/-- Insert official game rows, ignoring conflicts. -/
def insert_official_games (venue_pk : Nat) (t : List GameRow) (news : List GameNew) : List GameRow :=
  bulkIgnore (official_game_key venue_pk)
    (fun p n => { pk := p, gameTypeId := n.game_type_id, day := n.day, time := n.time, venueId := venue_pk })
    (·.pk) t news

/-- Insert custom (day and time null) game rows, ignoring conflicts. -/
def insert_custom_games (venue_pk : Nat) (t : List GameRow) (news : List Nat) : List GameRow :=
  bulkIgnore (custom_game_key venue_pk)
    (fun p n => { pk := p, gameTypeId := n, day := none, time := none, venueId := venue_pk })
    (·.pk) t news

/-- `ScraperService._process_games`: bulk-insert the officially listed
games and the custom game types found only in event data, then re-read
everything for the venue into a (game-type name, day) lookup, failing
fast when two persisted games share a key. -/
def _process_games (games : List GameRow) (gameTypes : List GameTypeRow) (data : PageData)
    (game_types : Dict String Nat) (venue_pk : Nat) :
    Except String (List GameRow × Dict (String × Option Nat) GameRow) := do
  let official ← mapME (fun g => do
      let tid ← dgetE game_types g.type
      pure (({ game_type_id := tid, day := some g.day, time := some g.time } : GameNew), (tid, g.day)))
    data.venue_data.games
  let official_rows := official.map (·.1)
  let official_keys := dedupList (official.map (·.2))
  let t := insert_official_games venue_pk games official_rows
  let custom_pairs ← mapME (fun e => do
      let tid ← dgetE game_types e.game_type
      pure (tid, weekday e.date))
    data.event_data
  let custom_keys := (dedupList custom_pairs).filter (fun k => decide (k ∉ official_keys))
  let custom_tids := dedupList (custom_keys.map (·.1))
  let t := insert_custom_games venue_pk t custom_tids
  let selected := t.filter (fun r =>
    official_rows.any (fun n => official_game_key venue_pk n r)
    || custom_tids.any (fun n => custom_game_key venue_pk n r && decide (r.time = none)))
  let gms ← foldlME (fun d r => do
      let tname ← (match gameTypes.find? (fun x => decide (x.pk = r.gameTypeId)) with
                   | some x => Except.ok x.name
                   | none => Except.error "missing game type row")
      match dget d (tname, r.day) with
      | some _ => Except.error "NotImplementedError: multiple games for the same type and day"
      | none => pure (dinsert d (tname, r.day) r))
    [] selected
  pure (t, gms)

/-- A pending `Quizmaster` row is skipped when the unique name exists. -/
def quizmaster_key (n : String) (r : QuizmasterRow) : Bool := decide (r.name = n)

/-- Insert quizmaster names, ignoring conflicts. -/
def insert_quizmasters (t : List QuizmasterRow) (names : List String) : List QuizmasterRow :=
  bulkIgnore quizmaster_key (fun p n => { pk := p, name := n }) (·.pk) t names

/-- `ScraperService._process_quizmasters`: union the quizmaster names of
the scraped events, bulk-insert ignoring conflicts, re-read to a lookup. -/
def _process_quizmasters (quizmasters : List QuizmasterRow) (event_data : List EventData) :
    List QuizmasterRow × Dict String Nat :=
  let names := dedupList (event_data.map (·.quizmaster))
  let t := insert_quizmasters quizmasters names
  let lookup := t.foldl (fun d r => if r.name ∈ names then dinsert d r.name r.pk else d) []
  (t, lookup)

/-- `ScraperService._match_game_to_event`: exact (type, day) match first,
then the (type, null) custom game, else a `KeyError`. -/
def _match_game_to_event (games : Dict (String × Option Nat) GameRow)
    (game_type : String) (day : Nat) : Except String GameRow :=
  match dget games (game_type, some day) with
  | some g => .ok g
  | none =>
      match dget games (game_type, none) with
      | some g => .ok g
      | none => .error "KeyError: no matching game found"

/-- `ScraperService._process_autoscrape_event`: on an unattended run,
find the scraped events whose matched game is the autoscrape target;
more than one is an error; exactly one selects the still-open placeholder
event for the target game on the current local date (quizmaster still
null) and fills in its end timestamp, description and quizmaster.
Returns (events table, events not updated, updated pk, updated data). -/
def _process_autoscrape_event (events : List EventRow) (event_data : List EventData)
    (autoscrape_game_id : Option Nat) (quizmasters : Dict String Nat)
    (games : Dict (String × Option Nat) GameRow) (is_manual : Bool) (today now : Nat) :
    Except String (List EventRow × List EventData × Option Nat × Option EventData) := do
  if is_manual then
    pure (events, event_data, none, none)
  else
    let matching ← filterME (fun p => do
        let g ← _match_game_to_event games p.2.game_type (weekday p.2.date)
        pure (decide (autoscrape_game_id = some g.pk)))
      event_data.enum
    match matching with
    | [] => pure (events, event_data, none, none)
    | [(i, me)] =>
        let hits := events.filter (fun r =>
          decide (some r.gameId = autoscrape_game_id ∧ r.date = today ∧ r.quizmasterId = none))
        match hits with
        | [ev] => do
            let qpk ← dgetE quizmasters me.quizmaster
            let ev2 := { ev with endDatetime := some now, description := me.description,
                                 quizmasterId := some qpk }
            let events2 := events.map (fun r => if r.pk = ev.pk then ev2 else r)
            let remaining := (event_data.enum.filter (fun p => decide (p.1 ≠ i))).map (·.2)
            pure (events2, remaining, some ev.pk, some me)
        | [] => .error "Event.DoesNotExist"
        | _ => .error "Event.MultipleObjectsReturned"
    | _ => .error "ValueError: Found multiple events in page data that match autoscraping game."

/-- A pending `Event` row, before pk assignment; the engine always sets
the quizmaster and leaves the end timestamp null. -/
structure EventNew where
  game_id : Nat
  date : Nat
  description : Option String
  quizmaster_id : Nat
  deriving Repr, DecidableEq

/-- Uniqueness for events: one event per (game, date). -/
def event_key (n : EventNew) (r : EventRow) : Bool :=
  decide (r.gameId = n.game_id ∧ r.date = n.date)

/-- Insert event rows, ignoring conflicts. -/
def insert_events (t : List EventRow) (news : List EventNew) : List EventRow :=
  bulkIgnore event_key
    (fun p n => { pk := p, gameId := n.game_id, date := n.date, endDatetime := none,
                  description := n.description, quizmasterId := some n.quizmaster_id,
                  themeId := none })
    (·.pk) t news

/-- `ScraperService._process_events`: bulk-insert an event row for every
scraped event that was not resolved by the autoscrape step, ignoring
conflicts, then re-read all events of the scraped set into a
(game pk, date) to event pk lookup. -/
def _process_events (events : List EventRow) (event_data events_not_updated : List EventData)
    (quizmasters : Dict String Nat) (games : Dict (String × Option Nat) GameRow) :
    Except String (List EventRow × Dict (Nat × Nat) Nat) := do
  let rows ← mapME (fun e => do
      let g ← _match_game_to_event games e.game_type (weekday e.date)
      let q ← dgetE quizmasters e.quizmaster
      pure ({ game_id := g.pk, date := e.date, description := e.description,
              quizmaster_id := q } : EventNew))
    events_not_updated
  let t := insert_events events rows
  let keys ← mapME (fun e => do
      let g ← _match_game_to_event games e.game_type (weekday e.date)
      pure (g.pk, e.date))
    event_data
  let lookup := t.foldl (fun d r =>
      if (r.gameId, r.date) ∈ keys then dinsert d (r.gameId, r.date) r.pk else d) []
  pure (t, lookup)

/-- Uniqueness for teams: the external `team_id` is globally unique. -/
def team_key (n : Nat) (r : TeamRow) : Bool := decide (r.teamId = some n)

/-- Insert official team rows, ignoring conflicts. -/
def insert_teams (t : List TeamRow) (ids : List Nat) : List TeamRow :=
  bulkIgnore team_key (fun p n => { pk := p, teamId := some n }) (·.pk) t ids

/-- A pending `TeamName` row, before pk assignment. -/
structure TeamNameNew where
  name : String
  team_id : Nat
  guest : Bool
  deriving Repr, DecidableEq

/-- Uniqueness for team names: one row per (name, team). -/
def team_name_key (n : TeamNameNew) (r : TeamNameRow) : Bool :=
  decide (r.name = n.name ∧ r.teamId = n.team_id)

/-- Insert team-name rows, ignoring conflicts. -/
def insert_team_names (t : List TeamNameRow) (news : List TeamNameNew) : List TeamNameRow :=
  bulkIgnore team_name_key
    (fun p n => { pk := p, name := n.name, teamId := n.team_id, guest := n.guest })
    (·.pk) t news

/-- One row of the official-team lookup re-read: record the external id
of a row in the scraped id set, skip rows without an external id. -/
def official_team_lookup_step (ids : List Nat) (d : Dict Nat Nat) (r : TeamRow) :
    Dict Nat Nat :=
  match r.teamId with
  | some i => if i ∈ ids then dinsert d i r.pk else d
  | none => d

/-- `ScraperService._process_official_teams`: bulk-insert a bare team per
scraped external id, re-read to a team_id to pk lookup, then bulk-insert
a (name, team, guest=false) team name for every scraped appearance,
ignoring conflicts.  Returns (teams table, team names table, lookup). -/
def _process_official_teams (teams : List TeamRow) (teamNames : List TeamNameRow)
    (event_data : List EventData) :
    Except String (List TeamRow × List TeamNameRow × Dict Nat Nat) := do
  let ids := dedupList ((event_data.flatMap (·.teams)).filterMap (·.team_id))
  let t := insert_teams teams ids
  let lookup := t.foldl (official_team_lookup_step ids) []
  let tn_rows ← foldlME (fun acc td =>
      match td.team_id with
      | some i => do
          let p ← dgetE lookup i
          pure (acc ++ [({ name := td.name, team_id := p, guest := false } : TeamNameNew)])
      | none => pure acc)
    [] (event_data.flatMap (·.teams))
  pure (t, insert_team_names teamNames tn_rows, lookup)

/-- Create `count` blank guest `Team` rows, returning the table and the
created rows in creation order (Django `bulk_create` return value). -/
def create_blank_teams : List TeamRow → Nat → List TeamRow × List TeamRow
  | t, 0 => (t, [])
  | t, k + 1 =>
      let row : TeamRow := { pk := freshPk (t.map (·.pk)), teamId := none }
      let r := create_blank_teams (t ++ [row]) k
      (r.1, row :: r.2)

/-- Ascending insertion into a sorted list of strings. -/
def insert_sorted_str (s : String) : List String → List String
  | [] => [s]
  | x :: xs => if x < s then x :: insert_sorted_str s xs else s :: x :: xs

/-- Python `sorted` on strings. -/
def sorted_strs (l : List String) : List String :=
  l.foldr insert_sorted_str []

/-- Plain `bulk_create` (no conflict ignoring) of guest team-name rows:
any unique-constraint violation — duplicate (name, team), duplicate
guest name, or second name for a guest team — raises. -/
def bulk_create_guest_names : List TeamNameRow → List TeamNameNew → Except String (List TeamNameRow)
  | t, [] => .ok t
  | t, n :: ns =>
      if t.any (fun r => decide ((r.name = n.name ∧ r.teamId = n.team_id) ∨
          (n.guest ∧ r.guest ∧ (r.name = n.name ∨ r.teamId = n.team_id)))) then
        .error "IntegrityError: team name conflict"
      else
        bulk_create_guest_names
          (t ++ [{ pk := freshPk (t.map (·.pk)), name := n.name, teamId := n.team_id, guest := n.guest }]) ns

/-- `ScraperService._process_guest_teams`: look up existing guest teams
by name; create one blank team per genuinely new guest name and pair the
blank rows, in sorted-name order, with new guest-flagged team names.
Returns (teams table, team names table, guest name to team pk lookup). -/
def _process_guest_teams (teams : List TeamRow) (teamNames : List TeamNameRow)
    (event_data : List EventData) :
    Except String (List TeamRow × List TeamNameRow × Dict String Nat) := do
  let names := dedupList ((event_data.flatMap (·.teams)).filterMap
      (fun td => if td.team_id = none then some td.name else none))
  let existing := teamNames.foldl (fun d tn =>
      if tn.guest ∧ tn.name ∈ names then dinsert d tn.name tn.teamId else d) ([] : Dict String Nat)
  let existing_names : List String := existing.map (·.1)
  let new_names := names.filter (fun n => decide (n ∉ existing_names))
  let created := create_blank_teams teams new_names.length
  let pairs := (sorted_strs new_names).zip created.2
  let new_rows := pairs.map (fun p => ({ name := p.1, team_id := p.2.pk, guest := true } : TeamNameNew))
  let tn ← bulk_create_guest_names teamNames new_rows
  let new_guest := pairs.foldl (fun d p => dinsert d p.1 p.2.pk) []
  pure (created.1, tn, dunion existing new_guest)

/-- `ScraperService._process_autoscrape_teps`: when an unattended run
resolved a placeholder event, look up its score-pending participation
rows, build a (team id, name) to score map from the matched scraped
event, and fill each row's score in place — failing loudly when a row
cannot be matched to any scraped team. -/
def _process_autoscrape_teps (teps : List TEPRow) (teams : List TeamRow)
    (teamNames : List TeamNameRow) (is_manual : Bool)
    (updated_event_pk : Option Nat) (updated_event_data : Option EventData) :
    Except String (List TEPRow) :=
  match is_manual, updated_event_data with
  | false, some ed =>
      let score_dict := ed.teams.foldl (fun d td => dinsert d (td.team_id, td.name) td.score) []
      mapME (fun r =>
        if decide (some r.eventId = updated_event_pk ∧ r.score = none) then do
          let team ← (match teams.find? (fun x => decide (x.pk = r.teamId)) with
                      | some x => Except.ok x
                      | none => Except.error "missing team row")
          let tname ← (match teamNames.find? (fun x => decide (x.pk = r.teamNameId)) with
                       | some x => Except.ok x
                       | none => Except.error "missing team name row")
          match dget score_dict (team.teamId, tname.name) with
          | none => .error "ValueError: Unable to match existing TeamEventParticipation to scraped data for score update."
          | some s => pure { r with score := some s }
        else pure r) teps
  | _, _ => .ok teps

/-- A pending `TeamEventParticipation` row, before pk assignment. -/
structure TEPNew where
  team_id : Nat
  team_name_id : Nat
  event_id : Nat
  score : Int
  deriving Repr, DecidableEq

/-- Uniqueness for participations: one row per (team, event). -/
def tep_key (n : TEPNew) (r : TEPRow) : Bool :=
  decide (r.teamId = n.team_id ∧ r.eventId = n.event_id)

/-- Insert participation rows, ignoring conflicts. -/
def insert_teps (t : List TEPRow) (news : List TEPNew) : List TEPRow :=
  bulkIgnore tep_key
    (fun p n => { pk := p, teamId := n.team_id, teamNameId := n.team_name_id,
                  eventId := n.event_id, score := some n.score })
    (·.pk) t news

/-- The (team pk, display name) to team-name pk lookup built at the start
of `_process_team_event_participations`. -/
def build_team_names (teamNames : List TeamNameRow) (teams : Dict Nat Nat)
    (guest_teams : Dict String Nat) : Dict (Nat × String) Nat :=
  teamNames.foldl (fun d tn =>
    if tn.teamId ∈ teams.map (·.2) ∨ tn.teamId ∈ guest_teams.map (·.2) then
      dinsert d (tn.teamId, tn.name) tn.pk
    else d) []

/-- The body of the participation dedup loop: keep a pending row per
(team pk, event pk) key, replacing it only when a later duplicate has a
strictly higher score. -/
def tep_dedup_step (team_names : Dict (Nat × String) Nat)
    (d : Dict (Nat × Nat) TEPNew) (item : (Nat × Nat) × (Int × String)) :
    Except String (Dict (Nat × Nat) TEPNew) :=
  let keep := match dget d item.1 with
              | none => true
              | some old => decide (item.2.1 > old.score)
  if keep then do
    let tn ← dgetE team_names (item.1.1, item.2.2)
    pure (dinsert d item.1
      { team_id := item.1.1, team_name_id := tn, event_id := item.1.2, score := item.2.1 })
  else pure d

/-- Resolve a scraped team to its persisted pk: official ids go through
the official lookup, null ids through the guest-name lookup. -/
def tep_resolve (teams : Dict Nat Nat) (guest_teams : Dict String Nat) (td : TeamData) :
    Except String Nat :=
  match td.team_id with
  | some i => dgetE teams i
  | none => dgetE guest_teams td.name

/-- One iteration of the inner dedup loop of
`_process_team_event_participations`. -/
def tep_inner_step (team_names : Dict (Nat × String) Nat) (teams : Dict Nat Nat)
    (guest_teams : Dict String Nat) (event_id : Nat)
    (d : Dict (Nat × Nat) TEPNew) (td : TeamData) :
    Except String (Dict (Nat × Nat) TEPNew) := do
  let tpk ← tep_resolve teams guest_teams td
  tep_dedup_step team_names d ((tpk, event_id), (td.score, td.name))

/-- `ScraperService._process_team_event_participations`: resolve every
scraped (event, team) appearance, dedup duplicates keeping the highest
score, and bulk-insert the surviving rows ignoring conflicts. -/
def _process_team_event_participations (teps : List TEPRow) (teamNames : List TeamNameRow)
    (event_data : List EventData) (events : Dict (Nat × Nat) Nat)
    (teams : Dict Nat Nat) (guest_teams : Dict String Nat)
    (games : Dict (String × Option Nat) GameRow) : Except String (List TEPRow) := do
  let team_names := build_team_names teamNames teams guest_teams
  let unique_teps ← foldlME (fun d e => do
      let g ← _match_game_to_event games e.game_type (weekday e.date)
      let event_id ← dgetE events (g.pk, e.date)
      foldlME (tep_inner_step team_names teams guest_teams event_id) d e.teams)
    [] event_data
  pure (insert_teps teps (unique_teps.map (·.2)))

/-- One iteration of the occurrence-stream builder: record the resolved
key with the scraped score and display name. -/
def tep_item_step (teams : Dict Nat Nat) (guest_teams : Dict String Nat) (event_id : Nat)
    (acc : List ((Nat × Nat) × (Int × String))) (td : TeamData) :
    Except String (List ((Nat × Nat) × (Int × String))) := do
  let tpk ← tep_resolve teams guest_teams td
  pure (acc ++ [((tpk, event_id), (td.score, td.name))])

/-- The flattened stream of scraped participation occurrences, in scrape
order: for each event and team, the resolved (team pk, event pk) key
with the scraped score and display name. -/
def build_tep_items (event_data : List EventData) (events : Dict (Nat × Nat) Nat)
    (teams : Dict Nat Nat) (guest_teams : Dict String Nat)
    (games : Dict (String × Option Nat) GameRow) :
    Except String (List ((Nat × Nat) × (Int × String))) :=
  foldlME (fun acc e => do
      let g ← _match_game_to_event games e.game_type (weekday e.date)
      let event_id ← dgetE events (g.pk, e.date)
      foldlME (tep_item_step teams guest_teams event_id) acc e.teams)
    [] event_data

/-- The occurrences of one (team pk, event pk) key in an item stream. -/
def key_occs (items : List ((Nat × Nat) × (Int × String))) (k : Nat × Nat) :
    List (Int × String) :=
  (items.filter (fun it => decide (it.1 = k))).map (·.2)

/-! ## The reconciliation engine entry point -/

/-- `ScraperService.push_to_db`: one atomic reconciliation call.  Returns
the new store together with the returned boolean and the observable
`updated_event_pk` / `updated_event_data` attributes of the service.  An
unattended call with no scraped events returns `false` before touching
the store; every other successful call runs the eleven steps in order
and returns `true`. -/
def push_to_db (st : DBState) (source_url : String) (is_manual : Bool) (data : PageData)
    (autoscrape_game_id : Option Nat) (today now : Nat) :
    Except String (DBState × Bool × Option Nat × Option EventData) :=
  if data.event_data = [] ∧ is_manual = false then
    .ok (st, false, none, none)
  else do
    let v := _create_or_update_venue st.venues source_url data.venue_data.name now
    let gt := _process_game_types st.gameTypes data
    let gr ← _process_games st.games gt.1 data gt.2 v.2
    let tasks ← sync_tasks_sync v.1 gt.1 st.tasks
      ((gr.2.filter (fun p => decide (p.1.2 ≠ none))).map (·.2))
    let qm := _process_quizmasters st.quizmasters data.event_data
    let au ← _process_autoscrape_event st.events data.event_data autoscrape_game_id qm.2 gr.2
      is_manual today now
    let ev ← _process_events au.1 data.event_data au.2.1 qm.2 gr.2
    let ot ← _process_official_teams st.teams st.teamNames data.event_data
    let gu ← _process_guest_teams ot.1 ot.2.1 data.event_data
    let teps1 ← _process_autoscrape_teps st.teps gu.1 gu.2.1 is_manual au.2.2.1 au.2.2.2
    let teps2 ← _process_team_event_participations teps1 gu.2.1 data.event_data ev.2 ot.2.2
      gu.2.2 gr.2
    pure ({ venues := v.1, gameTypes := gt.1, games := gr.1, quizmasters := qm.1,
            events := ev.1, teams := gu.1, teamNames := gu.2.1, teps := teps2,
            tasks := tasks },
          true, au.2.2.1, au.2.2.2)

/-- The store visible after a `push_to_db` call under `transaction.atomic`
semantics: an error rolls everything back. -/
def run_push (st : DBState) (source_url : String) (is_manual : Bool) (data : PageData)
    (autoscrape_game_id : Option Nat) (today now : Nat) : DBState :=
  match push_to_db st source_url is_manual data autoscrape_game_id today now with
  | .ok r => r.1
  | .error _ => st

/-! ## Autoscrape lifecycle tasks (scraper/tasks.py) -/

/-- `generate_placeholder_event`: create a bare event for the game dated
today, returning the store and the row the insert attempts to persist. -/
def generate_placeholder_event (st : DBState) (game_pk : Nat) (today : Nat) :
    DBState × EventRow :=
  let row : EventRow := { pk := freshPk (st.events.map (·.pk)), gameId := game_pk,
                          date := today, endDatetime := none, description := none,
                          quizmasterId := none, themeId := none }
  ({ st with events := st.events ++ [row] }, row)

/-- The lookback cutoff computed by `auto_scrape`: the date of the most
recent fully-quizmastered event at the venue, falling back to yesterday. -/
def compute_end_date (st : DBState) (url : String) (today : Nat) : Nat :=
  let venue_pks := (st.venues.filter (fun v => decide (v.url = url))).map (·.pk)
  let game_pks := (st.games.filter (fun g => decide (g.venueId ∈ venue_pks))).map (·.pk)
  let cands := st.events.filter (fun e => decide (e.gameId ∈ game_pks ∧ e.quizmasterId ≠ none))
  if cands.isEmpty then today - 1 else cands.foldl (fun m e => max m e.date) 0

/-- `auto_scrape`: scrape with the computed cutoff (the extractor is the
external parameter `scrape_result`, a function of that cutoff), push the
result unattended, and — only when the engine returns `true` — disable
the periodic task named `task_name`. -/
def auto_scrape (st : DBState) (game_pk : Nat) (url : String) (task_name : String)
    (scrape_result : Nat → PageData) (today now : Nat) : Except String DBState := do
  let end_date := compute_end_date st url today
  let data := scrape_result end_date
  let r ← push_to_db st url false data (some game_pk) today now
  if r.2.1 then
    pure { r.1 with tasks := r.1.tasks.map (fun t =>
      if t.name = task_name then { t with enabled := false } else t) }
  else
    pure r.1

/-- `reenable_scraping`: look for any event of the game dated yesterday;
delete the first one found (cascading to its participations) — otherwise
re-enable the periodic task named `task_name`. -/
def reenable_scraping (st : DBState) (game_pk : Nat) (task_name : String) (today : Nat) :
    DBState :=
  match st.events.find? (fun r => decide (r.gameId = game_pk ∧ r.date = today - 1)) with
  | some e =>
      { st with events := st.events.filter (fun r => decide (r.pk ≠ e.pk)),
                teps := st.teps.filter (fun r => decide (r.eventId ≠ e.pk)) }
  | none =>
      { st with tasks := st.tasks.map (fun t =>
          if t.name = task_name then { t with enabled := true } else t) }

/-! ## Concrete fixtures used by witnesses and counterexamples -/

/-- The empty store. -/
def empty_db : DBState := ⟨[], [], [], [], [], [], [], [], []⟩

/-- One-event, two-team page for the venue at url "u". -/
def page_a : PageData :=
  ⟨⟨"V", []⟩, [⟨3, "T", "Q", none, [⟨some 1, "A", 10⟩, ⟨none, "G", 5⟩]⟩]⟩

/-- Store after reconciling `page_a` into the empty store. -/
def st_a1 : DBState := run_push empty_db "u" false page_a (some 99) 3 5

/-- Store holding a venue, an official Monday game and a placeholder
event (end timestamp and quizmaster both null) dated day 7 (a Monday). -/
def st_b0 : DBState :=
  ⟨[⟨1, "V", "u", 0⟩], [⟨1, "T"⟩], [⟨1, 1, some 0, some ⟨19, 0⟩, 1⟩], [],
   [⟨1, 1, 7, none, none, none, none⟩], [], [], [], []⟩

/-- Page whose single event resolves to the official game of `st_b0`. -/
def page_b : PageData :=
  ⟨⟨"V", [⟨"T", 0, ⟨19, 0⟩⟩]⟩, [⟨7, "T", "Q", some "d", [⟨some 1, "A", 10⟩]⟩]⟩

/-- Store with one enabled auto-scrape periodic task named "TK". -/
def st_c : DBState :=
  ⟨[⟨1, "V", "u", 0⟩], [], [], [], [], [], [], [],
   [⟨"TK", "scraper.tasks.auto_scrape", ⟨"*/2", "20-21", "1", "*", "*"⟩,
     ⟨1, some "u", some "TK"⟩, true⟩]⟩

/-- A page with no scraped events. -/
def page_empty : PageData := ⟨⟨"V", []⟩, []⟩

/-- Store visible after a successful unattended scrape over `st_c`. -/
def push_c : DBState := run_push st_c "u" false page_a (some 99) 3 5

/-- Store visible after the `auto_scrape` task runs over `st_c` with a
scrape yielding `page_a`. -/
def auto_res : DBState :=
  match auto_scrape st_c 99 "u" "TK" (fun _ => page_a) 3 5 with
  | .ok s => s
  | .error _ => st_c

/-- Store with a fully resolved event (end timestamp and quizmaster both
non-null) for game 1 dated day 7, and a disabled auto-scrape task. -/
def st_d : DBState :=
  ⟨[⟨1, "V", "u", 0⟩], [⟨1, "T"⟩], [⟨1, 1, some 0, some ⟨19, 0⟩, 1⟩], [⟨1, "Q"⟩],
   [⟨1, 1, 7, some 50, some "d", some 1, none⟩], [], [], [],
   [⟨"TK", "scraper.tasks.auto_scrape", ⟨"*/2", "20-21", "1", "*", "*"⟩,
     ⟨1, some "u", some "TK"⟩, false⟩]⟩

/-- Official team 123 with two historical names, for the tie scenario. -/
def tn_tie : List TeamNameRow := [⟨20, "A", 10, false⟩, ⟨21, "B", 10, false⟩]

/-- One event whose team 123 appears twice with equal scores under two
different display names. -/
def ed_tie : List EventData :=
  [⟨5, "T", "Q", none, [⟨some 123, "A", 50⟩, ⟨some 123, "B", 50⟩]⟩]

/-- Games lookup for the tie scenario. -/
def gms_tie : Dict (String × Option Nat) GameRow :=
  [(("T", some 5), ⟨1, 1, some 5, some ⟨19, 0⟩, 1⟩)]

/-- The matched scraped event of the `page_b` autoscrape scenario. -/
def ed_b : EventData := ⟨7, "T", "Q", some "d", [⟨some 1, "A", 10⟩]⟩

/-- Store after the unattended `page_b` reconcile resolves the
placeholder of `st_b0`. -/
def st_b1 : DBState := run_push st_b0 "u" false page_b (some 1) 7 99

/-- Games lookup exercising all three branches of the matching function:
an exact ("A", Monday) game, a custom "B" game, and nothing for "C". -/
def gms_abc : Dict (String × Option Nat) GameRow :=
  [(("A", some 0), ⟨1, 1, some 0, some ⟨19, 0⟩, 1⟩), (("B", none), ⟨2, 2, none, none, 1⟩)]

/-! ## Theorems -/

/-- C9: for every game time strictly before 21:30 the scheduling-window
calculator returns the hour range [hour+1, hour+2] when minutes < 30 and
[hour+1, hour+3] when minutes >= 30 (so 14:00 gives "15-16", 09:15 gives
"10-11", 17:45 gives "18-20", 21:15 gives "22-23"); for every time at or
after 21:30 it raises an unsupported-hour error. -/
theorem generate_crontab_hours_spec (t : TimeOfDay) (hh : t.hour < 24) (hm : t.minute < 60) :
    ((t.hour < 21 ∨ (t.hour = 21 ∧ t.minute < 30)) →
      ((t.minute < 30 →
          _generate_crontab_hours t = .ok (toString (t.hour + 1) ++ "-" ++ toString (t.hour + 2))) ∧
       (30 ≤ t.minute →
          _generate_crontab_hours t = .ok (toString (t.hour + 1) ++ "-" ++ toString (t.hour + 3))))) ∧
    ((21 < t.hour ∨ (t.hour = 21 ∧ 30 ≤ t.minute)) →
      _generate_crontab_hours t = .error "NotImplementedError: Games must start before 9:30 PM.") ∧
    _generate_crontab_hours ⟨14, 0⟩ = .ok "15-16" ∧
    _generate_crontab_hours ⟨9, 15⟩ = .ok "10-11" ∧
    _generate_crontab_hours ⟨17, 45⟩ = .ok "18-20" ∧
    _generate_crontab_hours ⟨21, 15⟩ = .ok "22-23" ∧
    _generate_crontab_hours ⟨21, 30⟩ = .error "NotImplementedError: Games must start before 9:30 PM." := by
  refine ⟨?_, ?_, rfl, rfl, rfl, rfl, rfl⟩
  · intro hlt
    constructor
    · intro hm30
      have hcond : ¬(t.hour > 21 ∨ (t.hour = 21 ∧ t.minute ≥ 30)) := by omega
      rw [_generate_crontab_hours, if_neg hcond, if_pos hm30]
    · intro hm30
      have hcond : ¬(t.hour > 21 ∨ (t.hour = 21 ∧ t.minute ≥ 30)) := by
        rcases hlt with h | ⟨h1, h2⟩ <;> omega
      have hm30n : ¬ t.minute < 30 := by omega
      rw [_generate_crontab_hours, if_neg hcond, if_neg hm30n]
  · intro hge
    have hcond : t.hour > 21 ∨ (t.hour = 21 ∧ t.minute ≥ 30) := by omega
    rw [_generate_crontab_hours, if_pos hcond]

/-- Witness for C9 at the concrete inputs 14:00 and 21:30. -/
theorem generate_crontab_hours_spec_witness :
    _generate_crontab_hours ⟨14, 0⟩ = .ok "15-16" ∧
    _generate_crontab_hours ⟨21, 30⟩ = .error "NotImplementedError: Games must start before 9:30 PM." := by
  have h := generate_crontab_hours_spec ⟨14, 0⟩ (by decide) (by decide)
  exact ⟨h.2.2.1, h.2.2.2.2.2.2⟩

/-- C8: the game-matching function returns the exact (type, weekday) game
when one exists in the lookup, falls back to the (type, null) custom game
when no exact match exists, and raises a lookup error when neither does. -/
theorem match_game_to_event_spec (games : Dict (String × Option Nat) GameRow)
    (t : String) (d : Nat) :
    (∀ g, dget games (t, some d) = some g → _match_game_to_event games t d = .ok g) ∧
    (dget games (t, some d) = none →
      ∀ g, dget games (t, none) = some g → _match_game_to_event games t d = .ok g) ∧
    (dget games (t, some d) = none → dget games (t, none) = none →
      _match_game_to_event games t d = .error "KeyError: no matching game found") := by
  refine ⟨?_, ?_, ?_⟩
  · intro g h
    rw [_match_game_to_event, h]
  · intro h1 g h2
    rw [_match_game_to_event, h1, h2]
  · intro h1 h2
    rw [_match_game_to_event, h1, h2]

/-- Witness for C8: all three branches exercised over `gms_abc`. -/
theorem match_game_to_event_spec_witness :
    _match_game_to_event gms_abc "A" 0 = .ok ⟨1, 1, some 0, some ⟨19, 0⟩, 1⟩ ∧
    _match_game_to_event gms_abc "B" 3 = .ok ⟨2, 2, none, none, 1⟩ ∧
    _match_game_to_event gms_abc "C" 1 = .error "KeyError: no matching game found" := by
  refine ⟨?_, ?_, ?_⟩
  · exact (match_game_to_event_spec gms_abc "A" 0).1 _ (by decide)
  · exact (match_game_to_event_spec gms_abc "B" 3).2.1 (by decide) _ (by decide)
  · exact (match_game_to_event_spec gms_abc "C" 1).2.2 (by decide) (by decide)

/-- C10: an unattended call with an empty scraped event list returns
false without raising and performs no writes at all: the store is
returned exactly as it was. -/
theorem push_to_db_empty_autoscrape_noop (st : DBState) (url : String) (vd : VenueData)
    (gid : Option Nat) (today now : Nat) :
    push_to_db st url false ⟨vd, []⟩ gid today now = .ok (st, false, none, none) := by
  rfl

/-- C5: the placeholder-generation task builds a bare event row dated
today with end timestamp, description, quizmaster and theme all null —
a row that violates the schema's declaration of `quizmaster` as a
required (non-nullable) field, so the insert it attempts cannot satisfy
the declared schema even though the task's own test asserts it persists. -/
theorem generate_placeholder_event_violates_schema (st : DBState) (g today : Nat) :
    (generate_placeholder_event st g today).2.gameId = g ∧
    (generate_placeholder_event st g today).2.date = today ∧
    (generate_placeholder_event st g today).2.endDatetime = none ∧
    (generate_placeholder_event st g today).2.description = none ∧
    (generate_placeholder_event st g today).2.quizmasterId = none ∧
    (generate_placeholder_event st g today).2.themeId = none ∧
    event_row_meets_required_quizmaster (generate_placeholder_event st g today).2 = false ∧
    (generate_placeholder_event st g today).1.events
      = st.events ++ [(generate_placeholder_event st g today).2] := by
  exact ⟨rfl, rfl, rfl, rfl, rfl, rfl, rfl, rfl⟩

/-- C4: the re-enable pass deletes the yesterday event of the game even
when it was fully resolved (end timestamp non-null), and does not
re-enable the scrape task in that case — contradicting the claim that
only dangling placeholders (end timestamp null) are deleted. -/
theorem reenable_scraping_deletes_resolved_event :
    st_d.events.map (·.endDatetime) = [some 50] ∧
    (reenable_scraping st_d 1 "TK" 8).events = [] ∧
    (reenable_scraping st_d 1 "TK" 8).tasks.map (·.enabled) = [false] := by
  exact ⟨rfl, rfl, rfl⟩

/-- C2 counterexample: with the task "TK" enabled and a scrape yielding
no events, the engine reports no writes (returns false) and `auto_scrape`
leaves the task enabled — the claim says it would be disabled exactly
then. -/
theorem auto_scrape_disable_counterexample :
    push_to_db st_c "u" false page_empty (some 1) 3 5 = .ok (st_c, false, none, none) ∧
    auto_scrape st_c 1 "u" "TK" (fun _ => page_empty) 3 5 = .ok st_c ∧
    st_c.tasks.map (·.enabled) = [true] := by
  exact ⟨rfl, rfl, rfl⟩

/-- Unfolding a bind against a successful result. -/
theorem except_bind_ok_iff {α β : Type} {x : Except String α} {f : α → Except String β} {b : β} :
    (x >>= f) = .ok b ↔ ∃ a, x = .ok a ∧ f a = .ok b := by
  cases x <;> simp [Bind.bind, Except.bind]

/-- A successful bind surfaces a successful first component. -/
theorem except_bind_eq_ok {α β : Type} {x : Except String α} {f : α → Except String β} {b : β}
    (h : (x >>= f) = .ok b) : ∃ a, x = .ok a ∧ f a = .ok b :=
  except_bind_ok_iff.mp h

/-- Binding a success just applies the continuation. -/
theorem except_ok_bind {α β : Type} (a : α) (f : α → Except String β) :
    (Except.ok (ε := String) a >>= f) = f a := rfl

/-- C2 (amended): the unattended auto-scrape task disables its recurring
periodic task exactly when the engine reports writes occurred (returned
true); when the engine reports no writes (returned false) the task rows
are left exactly as the engine left them — the task is not disabled. -/
theorem auto_scrape_disables_on_writes (st : DBState) (gpk : Nat) (url tname : String)
    (f : Nat → PageData) (today now : Nat) (st1 st2 : DBState) (r : Bool)
    (u : Option Nat) (d : Option EventData)
    (hpush : push_to_db st url false (f (compute_end_date st url today)) (some gpk) today now
      = .ok (st1, r, u, d))
    (hrun : auto_scrape st gpk url tname f today now = .ok st2) :
    (r = true → ∀ t ∈ st2.tasks, t.name = tname → t.enabled = false) ∧
    (r = false → st2 = st1) := by
  unfold auto_scrape at hrun
  simp only [] at hrun
  rw [hpush] at hrun
  simp only [Bind.bind, Except.bind] at hrun
  cases r with
  | false =>
      simp only [Bool.false_eq_true, if_false, pure, Except.pure, Except.ok.injEq] at hrun
      subst hrun
      exact ⟨(fun h => by cases h), fun _ => rfl⟩
  | true =>
      simp only [if_true, pure, Except.pure, Except.ok.injEq] at hrun
      subst hrun
      refine ⟨fun _ t ht hname => ?_, (fun h => by cases h)⟩
      simp only [List.mem_map] at ht
      obtain ⟨t0, _, rfl⟩ := ht
      by_cases h0 : t0.name = tname
      · simp [h0]
      · rw [if_neg h0] at hname ⊢
        exact absurd hname h0

/-- Witness for C2 at the "writes occurred" concrete scenario. -/
theorem auto_scrape_disables_on_writes_witness :
    (true = true → ∀ t ∈ auto_res.tasks, t.name = "TK" → t.enabled = false) ∧
    (true = false → auto_res = push_c) := by
  exact auto_scrape_disables_on_writes st_c 99 "u" "TK" (fun _ => page_a) 3 5
    push_c auto_res true none none rfl rfl

/-- C3 counterexample: reconciling `page_a` a second time over the store
it produced performs zero writes of any kind — the returned store is
exactly the input store — yet the unattended call returns true, not
false as the claim requires. -/
theorem push_to_db_return_counterexample :
    push_to_db empty_db "u" false page_a (some 99) 3 5 = .ok (st_a1, true, none, none) ∧
    push_to_db st_a1 "u" false page_a (some 99) 3 5 = .ok (st_a1, true, none, none) := by
  exact ⟨rfl, rfl⟩

/-- C3 (amended): the returned boolean is false exactly when the call is
unattended and the scraped event list is empty — in which case no write
at all is performed and the store is returned untouched; every other
successful call returns true, even when every insert is
conflict-ignored (the venue's last-scraped timestamp is still written). -/
theorem push_to_db_return_iff (st : DBState) (url : String) (m : Bool) (data : PageData)
    (gid : Option Nat) (today now : Nat) (st1 : DBState) (r : Bool)
    (u : Option Nat) (d : Option EventData)
    (h : push_to_db st url m data gid today now = .ok (st1, r, u, d)) :
    (r = false ↔ (m = false ∧ data.event_data = [])) ∧ (r = false → st1 = st) := by
  unfold push_to_db at h
  by_cases hc : data.event_data = [] ∧ m = false
  · rw [if_pos hc] at h
    simp only [Except.ok.injEq, Prod.mk.injEq] at h
    obtain ⟨h1, h2, -⟩ := h
    subst h1
    exact ⟨by simp [← h2, hc.1, hc.2], fun _ => rfl⟩
  · rw [if_neg hc] at h
    simp only [] at h
    obtain ⟨a1, h1, h⟩ := except_bind_eq_ok h
    obtain ⟨a2, h2, h⟩ := except_bind_eq_ok h
    obtain ⟨a3, h3, h⟩ := except_bind_eq_ok h
    obtain ⟨a4, h4, h⟩ := except_bind_eq_ok h
    obtain ⟨a5, h5, h⟩ := except_bind_eq_ok h
    obtain ⟨a6, h6, h⟩ := except_bind_eq_ok h
    obtain ⟨a7, h7, h⟩ := except_bind_eq_ok h
    obtain ⟨a8, h8, h⟩ := except_bind_eq_ok h
    simp only [pure, Except.pure, Except.ok.injEq, Prod.mk.injEq] at h
    obtain ⟨-, hr, -⟩ := h
    refine ⟨⟨fun hrf => ?_, fun hx => absurd ⟨hx.2, hx.1⟩ hc⟩, fun hrf => ?_⟩
    · rw [← hr] at hrf
      cases hrf
    · rw [← hr] at hrf
      cases hrf

/-- Witness for C3 at the unattended empty-scrape concrete scenario. -/
theorem push_to_db_return_iff_witness :
    (false = false ↔ (false = false ∧ page_empty.event_data = [])) ∧
    (false = false → st_c = st_c) := by
  exact push_to_db_return_iff st_c "u" false page_empty (some 1) 3 5 st_c false none none rfl

/-- Unfolding `foldlME` on nil. -/
theorem foldlME_nil {α β : Type} (f : β → α → Except String β) (b : β) :
    foldlME f b [] = .ok b := rfl

/-- Unfolding `foldlME` on cons. -/
theorem foldlME_cons {α β : Type} (f : β → α → Except String β) (b : β) (a : α) (l : List α) :
    foldlME f b (a :: l) = (f b a >>= fun b2 => foldlME f b2 l) := rfl

/-- Folding over a concatenation chains the two folds. -/
theorem foldlME_append {α β : Type} (f : β → α → Except String β) :
    ∀ (l1 : List α) (l2 : List α) (b bmid c : β),
      foldlME f b l1 = .ok bmid → foldlME f bmid l2 = .ok c →
      foldlME f b (l1 ++ l2) = .ok c := by
  intro l1
  induction l1 with
  | nil =>
      intro l2 b bmid c h1 h2
      rw [foldlME_nil, Except.ok.injEq] at h1
      subst h1
      simpa using h2
  | cons a l ih =>
      intro l2 b bmid c h1 h2
      rw [foldlME_cons] at h1
      obtain ⟨b2, hb2, hl⟩ := except_bind_eq_ok h1
      rw [List.cons_append, foldlME_cons, hb2]
      simp only [Bind.bind, Except.bind]
      exact ih l2 b2 bmid c hl h2

/-- Looking up the key just inserted. -/
theorem dget_dinsert_self {κ ν : Type} [DecidableEq κ] (d : Dict κ ν) (k : κ) (v : ν) :
    dget (dinsert d k v) k = some v := by
  induction d with
  | nil => simp [dinsert, dget]
  | cons kv rest ih =>
      by_cases h : kv.1 = k
      · simp [dinsert, dget, h]
      · simp only [dinsert, dget]
        rw [if_neg h, dget, if_neg h]
        exact ih

/-- Inserting a different key does not change a lookup. -/
theorem dget_dinsert_ne {κ ν : Type} [DecidableEq κ] (d : Dict κ ν) (j k : κ) (v : ν)
    (h : j ≠ k) : dget (dinsert d j v) k = dget d k := by
  induction d with
  | nil => simp [dinsert, dget, h]
  | cons kv rest ih =>
      by_cases h2 : kv.1 = j
      · simp only [dinsert]
        rw [if_pos h2, dget, dget]
        have h3 : kv.1 ≠ k := by
          rw [h2]
          exact h
        rw [if_neg h3, if_neg h3]
      · simp only [dinsert]
        rw [if_neg h2, dget, dget]
        by_cases h3 : kv.1 = k
        · rw [if_pos h3, if_pos h3]
        · rw [if_neg h3, if_neg h3]
          exact ih

/-- Membership after a dictionary insertion. -/
theorem mem_dinsert {κ ν : Type} [DecidableEq κ] (d : Dict κ ν) (k : κ) (v : ν) (kv : κ × ν)
    (h : kv ∈ dinsert d k v) : kv = (k, v) ∨ kv ∈ d := by
  induction d with
  | nil => simpa [dinsert] using h
  | cons kv2 rest ih =>
      simp only [dinsert] at h
      by_cases h2 : kv2.1 = k
      · rw [if_pos h2] at h
        rcases List.mem_cons.mp h with h3 | h3
        · subst h3
          left
          rw [h2]
        · right
          exact List.mem_cons_of_mem _ h3
      · rw [if_neg h2] at h
        rcases List.mem_cons.mp h with h3 | h3
        · right
          exact h3 ▸ List.mem_cons_self _ _
        · rcases ih h3 with h4 | h4
          · exact Or.inl h4
          · exact Or.inr (List.mem_cons_of_mem _ h4)

/-- Insertion preserves key uniqueness. -/
theorem dinsert_keys_nodup {κ ν : Type} [DecidableEq κ] (d : Dict κ ν) (k : κ) (v : ν)
    (h : (d.map (·.1)).Nodup) : ((dinsert d k v).map (·.1)).Nodup := by
  induction d with
  | nil => simp [dinsert]
  | cons kv rest ih =>
      simp only [List.map_cons, List.nodup_cons] at h
      by_cases h2 : kv.1 = k
      · simp only [dinsert]
        rw [if_pos h2]
        simp only [List.map_cons, List.nodup_cons]
        exact h
      · simp only [dinsert]
        rw [if_neg h2]
        simp only [List.map_cons, List.nodup_cons]
        refine ⟨?_, ih h.2⟩
        intro hmem
        rcases List.mem_map.mp hmem with ⟨kv2, hkv2, hfst⟩
        rcases mem_dinsert rest k v kv2 hkv2 with h3 | h3
        · exact h2 (by rw [← hfst, h3])
        · exact h.1 (List.mem_map.mpr ⟨kv2, h3, hfst⟩)

/-- In a key-unique dictionary, the entries carrying a bound key are
exactly the singleton of its binding. -/
theorem dict_filter_key_eq {κ ν : Type} [DecidableEq κ] (d : Dict κ ν) (k : κ) (v : ν)
    (hnd : (d.map (·.1)).Nodup) (h : dget d k = some v) :
    d.filter (fun kv => decide (kv.1 = k)) = [(k, v)] := by
  induction d with
  | nil => simp [dget] at h
  | cons kv rest ih =>
      simp only [List.map_cons, List.nodup_cons] at hnd
      rw [dget] at h
      by_cases h2 : kv.1 = k
      · rw [if_pos h2] at h
        obtain rfl := Option.some.injEq _ _ ▸ h
        have hkv : kv = (k, kv.2) := by
          rw [← h2]
        rw [List.filter_cons]
        rw [if_pos (by simpa using h2)]
        have hrest : rest.filter (fun kv => decide (kv.1 = k)) = [] := by
          rw [List.filter_eq_nil_iff]
          intro kv2 hkv2
          simp only [decide_eq_true_eq]
          intro hk
          exact hnd.1 (List.mem_map.mpr ⟨kv2, hkv2, by rw [hk, h2]⟩)
        rw [hrest]
        rw [← hkv]
      · rw [if_neg h2] at h
        rw [List.filter_cons, if_neg (by simpa using h2)]
        exact ih hnd.2 h

/-- The inner dedup loop over one event's teams is the dedup fold of the
item stream that `tep_item_step` builds for those teams. -/
theorem tep_inner_flatten (tn : Dict (Nat × String) Nat) (teams : Dict Nat Nat)
    (guests : Dict String Nat) (eid : Nat) :
    ∀ (tds : List TeamData) (d d' : Dict (Nat × Nat) TEPNew)
      (acc : List ((Nat × Nat) × (Int × String))),
      foldlME (tep_inner_step tn teams guests eid) d tds = .ok d' →
      ∃ its, foldlME (tep_item_step teams guests eid) acc tds = .ok (acc ++ its) ∧
        foldlME (tep_dedup_step tn) d its = .ok d' := by
  intro tds
  induction tds with
  | nil =>
      intro d d' acc h
      rw [foldlME_nil, Except.ok.injEq] at h
      subst h
      exact ⟨[], by simp [foldlME_nil], rfl⟩
  | cons td rest ih =>
      intro d d' acc h
      rw [foldlME_cons] at h
      obtain ⟨d2, hstep, hrest⟩ := except_bind_eq_ok h
      unfold tep_inner_step at hstep
      obtain ⟨tpk, htpk, hded⟩ := except_bind_eq_ok hstep
      obtain ⟨its2, hits2, hded2⟩ := ih d2 d' (acc ++ [((tpk, eid), (td.score, td.name))]) hrest
      refine ⟨((tpk, eid), (td.score, td.name)) :: its2, ?_, ?_⟩
      · rw [foldlME_cons]
        have hstep2 : tep_item_step teams guests eid acc td
            = .ok (acc ++ [((tpk, eid), (td.score, td.name))]) := by
          unfold tep_item_step
          rw [htpk]
          rfl
        rw [hstep2]
        simp only [Bind.bind, Except.bind]
        rw [hits2]
        simp [List.append_assoc]
      · rw [foldlME_cons, hded]
        simp only [Bind.bind, Except.bind]
        exact hded2

/-- The nested dedup loops of the participation step compute the dedup
fold of the flattened item stream. -/
theorem tep_outer_flatten (tn : Dict (Nat × String) Nat) (teams : Dict Nat Nat)
    (guests : Dict String Nat) (events : Dict (Nat × Nat) Nat)
    (gms : Dict (String × Option Nat) GameRow) :
    ∀ (ed : List EventData) (d d' : Dict (Nat × Nat) TEPNew)
      (acc : List ((Nat × Nat) × (Int × String))),
      foldlME (fun d e => do
          let g ← _match_game_to_event gms e.game_type (weekday e.date)
          let event_id ← dgetE events (g.pk, e.date)
          foldlME (tep_inner_step tn teams guests event_id) d e.teams) d ed = .ok d' →
      ∃ its,
        foldlME (fun acc e => do
            let g ← _match_game_to_event gms e.game_type (weekday e.date)
            let event_id ← dgetE events (g.pk, e.date)
            foldlME (tep_item_step teams guests event_id) acc e.teams) acc ed = .ok (acc ++ its) ∧
        foldlME (tep_dedup_step tn) d its = .ok d' := by
  intro ed
  induction ed with
  | nil =>
      intro d d' acc h
      rw [foldlME_nil, Except.ok.injEq] at h
      subst h
      exact ⟨[], by simp [foldlME_nil], rfl⟩
  | cons e rest ih =>
      intro d d' acc h
      rw [foldlME_cons] at h
      obtain ⟨d2, hstep, hrest⟩ := except_bind_eq_ok h
      obtain ⟨g, hg, hstep⟩ := except_bind_eq_ok hstep
      obtain ⟨eid, heid, hinner⟩ := except_bind_eq_ok hstep
      obtain ⟨its1, hits1, hded1⟩ := tep_inner_flatten tn teams guests eid e.teams d d2 acc hinner
      obtain ⟨its2, hits2, hded2⟩ := ih d2 d' (acc ++ its1) hrest
      refine ⟨its1 ++ its2, ?_, ?_⟩
      · have hF : (do
            let g ← _match_game_to_event gms e.game_type (weekday e.date)
            let event_id ← dgetE events (g.pk, e.date)
            foldlME (tep_item_step teams guests event_id) acc e.teams)
            = Except.ok (acc ++ its1) := by
          simp only [hg, except_ok_bind, heid, hits1]
        rw [foldlME_cons, hF]
        simp only [except_ok_bind, hits2, List.append_assoc]
      · exact foldlME_append _ its1 its2 d d2 d' hded1 hded2

/-- A successful subscript means the key is bound. -/
theorem dgetE_ok {κ ν : Type} [DecidableEq κ] {d : Dict κ ν} {k : κ} {v : ν}
    (h : dgetE d k = .ok v) : dget d k = some v := by
  unfold dgetE at h
  cases hh : dget d k with
  | none => rw [hh] at h; cases h
  | some a => rw [hh] at h; cases h; rfl

/-- What one dedup step can do: insert a fresh or strictly better pending
row for the item's key, or keep the bound one. -/
theorem tep_dedup_step_char (tn : Dict (Nat × String) Nat) (d : Dict (Nat × Nat) TEPNew)
    (item : (Nat × Nat) × (Int × String)) (d1 : Dict (Nat × Nat) TEPNew)
    (h : tep_dedup_step tn d item = .ok d1) :
    ((dget d item.1 = none ∨ ∃ old, dget d item.1 = some old ∧ old.score < item.2.1) ∧
      ∃ tnpk, dget tn (item.1.1, item.2.2) = some tnpk ∧
        d1 = dinsert d item.1 ⟨item.1.1, tnpk, item.1.2, item.2.1⟩) ∨
    ((∃ old, dget d item.1 = some old ∧ item.2.1 ≤ old.score) ∧ d1 = d) := by
  unfold tep_dedup_step at h
  cases hget : dget d item.1 with
  | none =>
      rw [hget] at h
      simp only [if_true] at h
      obtain ⟨tnpk, htn, hp⟩ := except_bind_eq_ok h
      simp only [pure, Except.pure, Except.ok.injEq] at hp
      exact Or.inl ⟨Or.inl rfl, tnpk, dgetE_ok htn, hp.symm⟩
  | some old =>
      rw [hget] at h
      by_cases hcmp : item.2.1 > old.score
      · rw [if_pos (by simpa using hcmp)] at h
        obtain ⟨tnpk, htn, hp⟩ := except_bind_eq_ok h
        simp only [pure, Except.pure, Except.ok.injEq] at hp
        exact Or.inl ⟨Or.inr ⟨old, rfl, hcmp⟩, tnpk, dgetE_ok htn, hp.symm⟩
      · rw [if_neg (by simpa using hcmp)] at h
        simp only [pure, Except.pure, Except.ok.injEq] at h
        exact Or.inr ⟨⟨old, rfl, by omega⟩, h.symm⟩

/-- Key occurrences of the empty stream. -/
theorem key_occs_nil (k : Nat × Nat) : key_occs [] k = [] := rfl

/-- Key occurrences of a stream headed by the key itself. -/
theorem key_occs_cons_self (it : (Nat × Nat) × (Int × String))
    (rest : List ((Nat × Nat) × (Int × String))) (k : Nat × Nat) (h : it.1 = k) :
    key_occs (it :: rest) k = it.2 :: key_occs rest k := by
  simp [key_occs, List.filter_cons, h]

/-- Key occurrences of a stream headed by a different key. -/
theorem key_occs_cons_ne (it : (Nat × Nat) × (Int × String))
    (rest : List ((Nat × Nat) × (Int × String))) (k : Nat × Nat) (h : ¬ it.1 = k) :
    key_occs (it :: rest) k = key_occs rest k := by
  simp [key_occs, List.filter_cons, h]

/-- The invariant carried through the dedup fold for one key: either the
key is unbound and no occurrence has been seen, or the bound pending row
carries the maximum score seen so far and the team name of the first
occurrence attaining it. -/
def dedup_inv (tn : Dict (Nat × String) Nat) (k : Nat × Nat)
    (d : Dict (Nat × Nat) TEPNew) (P : List (Int × String)) : Prop :=
  (dget d k = none ∧ P = []) ∨
    (∃ sc nm tnpk, dget d k = some ⟨k.1, tnpk, k.2, sc⟩ ∧
      (∀ o ∈ P, o.1 ≤ sc) ∧
      P.find? (fun o => decide (sc ≤ o.1)) = some (sc, nm) ∧
      dget tn (k.1, nm) = some tnpk)

/-- The dedup fold maintains `dedup_inv`, accumulating the key's
occurrences. -/
theorem tep_dedup_fold_inv (tn : Dict (Nat × String) Nat) (k : Nat × Nat) :
    ∀ (items : List ((Nat × Nat) × (Int × String))) (d0 d1 : Dict (Nat × Nat) TEPNew)
      (P : List (Int × String)),
      foldlME (tep_dedup_step tn) d0 items = .ok d1 →
      dedup_inv tn k d0 P →
      dedup_inv tn k d1 (P ++ key_occs items k) := by
  intro items
  induction items with
  | nil =>
      intro d0 d1 P h hinv
      rw [foldlME_nil, Except.ok.injEq] at h
      subst h
      simpa [key_occs_nil] using hinv
  | cons it rest ih =>
      intro d0 d1 P h hinv
      rw [foldlME_cons] at h
      obtain ⟨d2, hstep, hrest⟩ := except_bind_eq_ok h
      by_cases hk : it.1 = k
      · rw [key_occs_cons_self it rest k hk]
        have hgoal : dedup_inv tn k d1 ((P ++ [it.2]) ++ key_occs rest k) := by
          apply ih d2 d1 (P ++ [it.2]) hrest
          rcases tep_dedup_step_char tn d0 it d2 hstep with
            ⟨hcond, tnpk2, htn2, hd2⟩ | ⟨⟨old, hget0, hle⟩, hd2⟩
          · right
            refine ⟨it.2.1, it.2.2, tnpk2, ?_, ?_, ?_, ?_⟩
            · rw [hd2, hk, dget_dinsert_self]
            · intro o ho
              rcases List.mem_append.mp ho with hP | hsing
              · rcases hcond with hnone | ⟨old, hget0, hlt⟩
                · rcases hinv with ⟨-, hP0⟩ | ⟨sc, nm, tnpk, hget, -⟩
                  · subst hP0
                    cases hP
                  · rw [hk] at hnone
                    rw [hnone] at hget
                    cases hget
                · rcases hinv with ⟨hn, -⟩ | ⟨sc, nm, tnpk, hget, hb, -⟩
                  · rw [hk] at hget0
                    rw [hn] at hget0
                    cases hget0
                  · rw [hk] at hget0
                    rw [hget] at hget0
                    obtain rfl := (Option.some.injEq _ _).mp hget0
                    have h2 : sc < it.2.1 := hlt
                    have h1 := hb o hP
                    omega
              · rcases List.mem_singleton.mp hsing with rfl
                exact le_refl _
            · rcases hcond with hnone | ⟨old, hget0, hlt⟩
              · rcases hinv with ⟨-, hP0⟩ | ⟨sc, nm, tnpk, hget, -⟩
                · subst hP0
                  simp only [List.nil_append]
                  rw [List.find?_cons_of_pos _ (by simp)]
                · rw [hk] at hnone
                  rw [hnone] at hget
                  cases hget
              · rcases hinv with ⟨hn, -⟩ | ⟨sc, nm, tnpk, hget, hb, hf, -⟩
                · rw [hk] at hget0
                  rw [hn] at hget0
                  cases hget0
                · rw [hk] at hget0
                  rw [hget] at hget0
                  obtain rfl := (Option.some.injEq _ _).mp hget0
                  have h2 : sc < it.2.1 := hlt
                  have hPnone : P.find? (fun o => decide (it.2.1 ≤ o.1)) = none := by
                    rw [List.find?_eq_none]
                    intro x hx
                    have h1 := hb x hx
                    simp only [decide_eq_true_eq]
                    omega
                  rw [List.find?_append, hPnone, Option.none_or]
                  rw [List.find?_cons_of_pos _ (by simp)]
            · rw [hk] at htn2
              exact htn2
          · rcases hinv with ⟨hn, -⟩ | ⟨sc, nm, tnpk, hget, hb, hf, htn⟩
            · rw [hk] at hget0
              rw [hn] at hget0
              cases hget0
            · right
              rw [hk] at hget0
              rw [hget] at hget0
              obtain rfl := (Option.some.injEq _ _).mp hget0
              refine ⟨sc, nm, tnpk, by rw [hd2]; exact hget, ?_, ?_, htn⟩
              · intro o ho
                rcases List.mem_append.mp ho with hP | hsing
                · exact hb o hP
                · rcases List.mem_singleton.mp hsing with rfl
                  simpa using hle
              · rw [List.find?_append, hf]
                simp
        simpa [List.append_assoc] using hgoal
      · rw [key_occs_cons_ne it rest k hk]
        apply ih d2 d1 P hrest
        rcases tep_dedup_step_char tn d0 it d2 hstep with
          ⟨-, tnpk2, -, hd2⟩ | ⟨-, hd2⟩
        · unfold dedup_inv
          rw [hd2, dget_dinsert_ne _ _ _ _ hk]
          exact hinv
        · rw [hd2]
          exact hinv

/-- Every entry the dedup fold stores agrees with its key. -/
theorem tep_dedup_fold_entries (tn : Dict (Nat × String) Nat) :
    ∀ (items : List ((Nat × Nat) × (Int × String))) (d0 d1 : Dict (Nat × Nat) TEPNew),
      foldlME (tep_dedup_step tn) d0 items = .ok d1 →
      (∀ kv ∈ d0, kv.2.team_id = kv.1.1 ∧ kv.2.event_id = kv.1.2) →
      ∀ kv ∈ d1, kv.2.team_id = kv.1.1 ∧ kv.2.event_id = kv.1.2 := by
  intro items
  induction items with
  | nil =>
      intro d0 d1 h h0
      rw [foldlME_nil, Except.ok.injEq] at h
      subst h
      exact h0
  | cons it rest ih =>
      intro d0 d1 h h0
      rw [foldlME_cons] at h
      obtain ⟨d2, hstep, hrest⟩ := except_bind_eq_ok h
      apply ih d2 d1 hrest
      rcases tep_dedup_step_char tn d0 it d2 hstep with ⟨-, tnpk, -, hd2⟩ | ⟨-, hd2⟩
      · subst hd2
        intro kv hkv
        rcases mem_dinsert _ _ _ _ hkv with rfl | hmem
        · exact ⟨rfl, rfl⟩
        · exact h0 kv hmem
      · subst hd2
        exact h0

/-- The dedup fold keeps the accumulator's keys unique. -/
theorem tep_dedup_fold_nodup (tn : Dict (Nat × String) Nat) :
    ∀ (items : List ((Nat × Nat) × (Int × String))) (d0 d1 : Dict (Nat × Nat) TEPNew),
      foldlME (tep_dedup_step tn) d0 items = .ok d1 →
      (d0.map (·.1)).Nodup → (d1.map (·.1)).Nodup := by
  intro items
  induction items with
  | nil =>
      intro d0 d1 h h0
      rw [foldlME_nil, Except.ok.injEq] at h
      subst h
      exact h0
  | cons it rest ih =>
      intro d0 d1 h h0
      rw [foldlME_cons] at h
      obtain ⟨d2, hstep, hrest⟩ := except_bind_eq_ok h
      apply ih d2 d1 hrest
      rcases tep_dedup_step_char tn d0 it d2 hstep with ⟨-, tnpk, -, hd2⟩ | ⟨-, hd2⟩
      · subst hd2
        exact dinsert_keys_nodup _ _ _ h0
      · subst hd2
        exact h0

/-- For a key-agreeing dictionary, filtering its values by a key matches
filtering its entries. -/
theorem values_filter_key (k : Nat × Nat) :
    ∀ (d : Dict (Nat × Nat) TEPNew),
      (∀ kv ∈ d, kv.2.team_id = kv.1.1 ∧ kv.2.event_id = kv.1.2) →
      (d.map (·.2)).filter (fun n => decide (n.team_id = k.1 ∧ n.event_id = k.2))
        = (d.filter (fun kv => decide (kv.1 = k))).map (·.2) := by
  intro d
  induction d with
  | nil => intro _; rfl
  | cons kv rest ih =>
      intro hagree
      have hkv := hagree kv (List.mem_cons_self _ _)
      have hrest := fun kv2 h2 => hagree kv2 (List.mem_cons_of_mem _ h2)
      simp only [List.map_cons, List.filter_cons]
      by_cases hk : kv.1 = k
      · rw [if_pos (by simp [hkv.1, hkv.2, ← hk]), if_pos (by simpa using hk)]
        simp only [List.map_cons]
        rw [ih hrest]
      · have hne : ¬(kv.2.team_id = k.1 ∧ kv.2.event_id = k.2) := by
          intro ⟨h1, h2⟩
          exact hk (Prod.ext (by rw [← hkv.1, h1]) (by rw [← hkv.2, h2]))
        rw [if_neg (by simpa using hne), if_neg (by simpa using hk)]
        exact ih hrest

/-- Unfolding `bulkIgnore` on nil. -/
theorem bulkIgnore_nil {ν ρ : Type} (keyMatch : ν → ρ → Bool) (mk : Nat → ν → ρ)
    (pkOf : ρ → Nat) (t : List ρ) : bulkIgnore keyMatch mk pkOf t [] = t := rfl

/-- Unfolding `bulkIgnore` on cons. -/
theorem bulkIgnore_cons {ν ρ : Type} (keyMatch : ν → ρ → Bool) (mk : Nat → ν → ρ)
    (pkOf : ρ → Nat) (t : List ρ) (n : ν) (ns : List ν) :
    bulkIgnore keyMatch mk pkOf t (n :: ns)
      = if t.any (keyMatch n) then bulkIgnore keyMatch mk pkOf t ns
        else bulkIgnore keyMatch mk pkOf (t ++ [mk (freshPk (t.map pkOf)) n]) ns := rfl

/-- Inserting pending rows that all miss a key leaves that key's row set
unchanged. -/
theorem insert_teps_filter_no_new (k : Nat × Nat) :
    ∀ (news : List TEPNew) (t : List TEPRow),
      (∀ n ∈ news, ¬(n.team_id = k.1 ∧ n.event_id = k.2)) →
      (insert_teps t news).filter (fun r => decide (r.teamId = k.1 ∧ r.eventId = k.2))
        = t.filter (fun r => decide (r.teamId = k.1 ∧ r.eventId = k.2)) := by
  intro news
  induction news with
  | nil => intro t _; rfl
  | cons n ns ih =>
      intro t hmiss
      have hn := hmiss n (List.mem_cons_self _ _)
      have hns := fun x hx => hmiss x (List.mem_cons_of_mem _ hx)
      unfold insert_teps
      rw [bulkIgnore_cons]
      by_cases hc : t.any (tep_key n) = true
      · rw [if_pos hc]
        exact ih t hns
      · rw [if_neg hc]
        have := ih (t ++ [(⟨freshPk (t.map (·.pk)), n.team_id,
          n.team_name_id, n.event_id, some n.score⟩ : TEPRow)]) hns
        unfold insert_teps at this
        rw [this, List.filter_append]
        have hrow : ([(⟨freshPk (t.map (·.pk)), n.team_id,
            n.team_name_id, n.event_id, some n.score⟩ : TEPRow)]).filter
            (fun r => decide (r.teamId = k.1 ∧ r.eventId = k.2)) = [] := by
          simp only [List.filter_cons, List.filter_nil]
          rw [if_neg (by simpa using hn)]
        rw [hrow, List.append_nil]

/-- When the pending rows contain exactly one row for a key absent from
the table, the insert persists exactly that row for the key. -/
theorem insert_teps_key_rows (k : Nat × Nat) :
    ∀ (news : List TEPNew) (t : List TEPRow) (v : TEPNew),
      (∀ r ∈ t, ¬(r.teamId = k.1 ∧ r.eventId = k.2)) →
      news.filter (fun n => decide (n.team_id = k.1 ∧ n.event_id = k.2)) = [v] →
      ∃ pk, (insert_teps t news).filter (fun r => decide (r.teamId = k.1 ∧ r.eventId = k.2))
        = [⟨pk, v.team_id, v.team_name_id, v.event_id, some v.score⟩] := by
  intro news
  induction news with
  | nil =>
      intro t v _ hone
      cases hone
  | cons n ns ih =>
      intro t v ht hone
      rw [List.filter_cons] at hone
      by_cases hn : n.team_id = k.1 ∧ n.event_id = k.2
      · rw [if_pos (by simpa using hn)] at hone
        obtain ⟨rfl, hrest⟩ := List.cons.injEq _ _ _ _ ▸ hone
        have hrest2 : ∀ x ∈ ns, ¬(x.team_id = k.1 ∧ x.event_id = k.2) := by
          intro x hx
          have := List.filter_eq_nil_iff.mp hrest x hx
          simpa using this
        unfold insert_teps
        rw [bulkIgnore_cons]
        have hc : ¬ t.any (tep_key n) = true := by
          rw [List.any_eq_true]
          rintro ⟨r, hr, hp⟩
          unfold tep_key at hp
          rw [decide_eq_true_eq] at hp
          exact ht r hr ⟨by rw [hp.1, hn.1], by rw [hp.2, hn.2]⟩
        rw [if_neg hc]
        refine ⟨freshPk (t.map (·.pk)), ?_⟩
        have hnomore := insert_teps_filter_no_new k ns
          (t ++ [(⟨freshPk (t.map (·.pk)), n.team_id,
            n.team_name_id, n.event_id, some n.score⟩ : TEPRow)])
          hrest2
        unfold insert_teps at hnomore
        rw [hnomore, List.filter_append]
        have htnil : t.filter (fun r => decide (r.teamId = k.1 ∧ r.eventId = k.2)) = [] := by
          rw [List.filter_eq_nil_iff]
          intro r hr
          simpa using ht r hr
        rw [htnil, List.nil_append]
        simp only [List.filter_cons, List.filter_nil]
        rw [if_pos (by simpa using hn)]
      · rw [if_neg (by simpa using hn)] at hone
        unfold insert_teps
        rw [bulkIgnore_cons]
        by_cases hc : t.any (tep_key n) = true
        · rw [if_pos hc]
          exact ih t v ht hone
        · rw [if_neg hc]
          apply ih _ v _ hone
          intro r hr
          rcases List.mem_append.mp hr with hr2 | hr2
          · exact ht r hr2
          · rcases List.mem_singleton.mp hr2 with rfl
            simpa using hn

/-- Splitting a successful participation step into its dedup fold and
its final conflict-ignoring insert. -/
theorem tep_process_decomp (tept : List TEPRow) (tnt : List TeamNameRow)
    (ed : List EventData) (events : Dict (Nat × Nat) Nat) (teams : Dict Nat Nat)
    (guests : Dict String Nat) (gms : Dict (String × Option Nat) GameRow)
    (out : List TEPRow)
    (hrun : _process_team_event_participations tept tnt ed events teams guests gms = .ok out) :
    ∃ d, foldlME (fun d e => do
        let g ← _match_game_to_event gms e.game_type (weekday e.date)
        let event_id ← dgetE events (g.pk, e.date)
        foldlME (tep_inner_step (build_team_names tnt teams guests) teams guests event_id)
          d e.teams)
      [] ed = .ok d ∧ out = insert_teps tept (d.map (·.2)) := by
  unfold _process_team_event_participations at hrun
  simp only [] at hrun
  obtain ⟨d, hf, hp⟩ := except_bind_eq_ok hrun
  simp only [pure, Except.pure, Except.ok.injEq] at hp
  exact ⟨d, hf, hp.symm⟩

/-- C6 (amended): when a (team, event) pair occurs more than once across
the scraped data and no participation row for the pair is already
persisted, exactly one participation row is persisted for the pair, its
score is the maximum score among the duplicates, and on a tie the
first-seen duplicate's record — its TeamName — is the one kept. -/
theorem teps_dedup_max_first (tept : List TEPRow) (tnt : List TeamNameRow)
    (ed : List EventData) (events : Dict (Nat × Nat) Nat) (teams : Dict Nat Nat)
    (guests : Dict String Nat) (gms : Dict (String × Option Nat) GameRow)
    (out : List TEPRow) (items : List ((Nat × Nat) × (Int × String))) (k : Nat × Nat)
    (hrun : _process_team_event_participations tept tnt ed events teams guests gms = .ok out)
    (hitems : build_tep_items ed events teams guests gms = .ok items)
    (hdup : 2 ≤ (key_occs items k).length)
    (hfresh : ∀ r ∈ tept, ¬(r.teamId = k.1 ∧ r.eventId = k.2)) :
    ∃ sc nm tnpk pk,
      (∀ o ∈ key_occs items k, o.1 ≤ sc) ∧
      (key_occs items k).find? (fun o => decide (sc ≤ o.1)) = some (sc, nm) ∧
      dget (build_team_names tnt teams guests) (k.1, nm) = some tnpk ∧
      out.filter (fun r => decide (r.teamId = k.1 ∧ r.eventId = k.2))
        = [⟨pk, k.1, tnpk, k.2, some sc⟩] := by
  obtain ⟨d, hfold, hout⟩ := tep_process_decomp tept tnt ed events teams guests gms out hrun
  obtain ⟨its, hits, hded⟩ := tep_outer_flatten (build_team_names tnt teams guests)
    teams guests events gms ed [] d [] hfold
  have hbuild : build_tep_items ed events teams guests gms = .ok ([] ++ its) := hits
  rw [hitems, Except.ok.injEq] at hbuild
  rw [List.nil_append] at hbuild
  subst hbuild
  have hinv := tep_dedup_fold_inv (build_team_names tnt teams guests) k items [] d []
    hded (Or.inl ⟨rfl, rfl⟩)
  rw [List.nil_append] at hinv
  rcases hinv with ⟨-, hocc⟩ | ⟨sc, nm, tnpk, hget, hb, hf2, htn⟩
  · rw [hocc] at hdup
    simp at hdup
  · have hagree := tep_dedup_fold_entries (build_team_names tnt teams guests) items [] d
      hded (by intro kv h; cases h)
    have hnd := tep_dedup_fold_nodup (build_team_names tnt teams guests) items [] d
      hded (by simp)
    have hfd := dict_filter_key_eq d k ⟨k.1, tnpk, k.2, sc⟩ hnd hget
    have hvf := values_filter_key k d hagree
    rw [hfd] at hvf
    simp only [List.map_cons, List.map_nil] at hvf
    obtain ⟨pk, hrows⟩ := insert_teps_key_rows k (d.map (·.2)) tept ⟨k.1, tnpk, k.2, sc⟩
      hfresh hvf
    refine ⟨sc, nm, tnpk, pk, hb, hf2, htn, ?_⟩
    rw [hout]
    exact hrows

/-- Witness for C6: a guest team appearing twice for one event with
scores 50 then 70 yields exactly one persisted row carrying 70. -/
theorem teps_dedup_max_first_witness :
    ∃ sc nm tnpk pk,
      (∀ o ∈ key_occs [((2, 7), (50, "Team A")), ((2, 7), (70, "Team A"))] (2, 7), o.1 ≤ sc) ∧
      (key_occs [((2, 7), (50, "Team A")), ((2, 7), (70, "Team A"))] (2, 7)).find?
        (fun o => decide (sc ≤ o.1)) = some (sc, nm) ∧
      dget (build_team_names [⟨20, "Team A", 2, true⟩] [] [("Team A", 2)])
        ((2, 7).1, nm) = some tnpk ∧
      ([(⟨1, 2, 20, 7, some 70⟩ : TEPRow)]).filter
        (fun r => decide (r.teamId = (2, 7).1 ∧ r.eventId = (2, 7).2))
        = [⟨pk, (2, 7).1, tnpk, (2, 7).2, some sc⟩] := by
  exact teps_dedup_max_first [] [⟨20, "Team A", 2, true⟩]
    [⟨5, "T", "Q", none, [⟨none, "Team A", 50⟩, ⟨none, "Team A", 70⟩]⟩]
    [((1, 5), 7)] [] [("Team A", 2)]
    [(("T", some 5), ⟨1, 1, some 5, some ⟨19, 0⟩, 1⟩)]
    [⟨1, 2, 20, 7, some 70⟩]
    [((2, 7), (50, "Team A")), ((2, 7), (70, "Team A"))] (2, 7)
    rfl rfl (by decide) (by simp)

/-- C6 counterexample: official team 123 appears twice for one event
with equal scores under names "A" (TeamName pk 20, seen first) and "B"
(TeamName pk 21, seen last); the persisted row keeps the first-seen
record's TeamName pk 20, not the last-seen one's as the claim states. -/
theorem teps_tie_counterexample :
    _process_team_event_participations [] tn_tie ed_tie [((1, 5), 7)] [(123, 10)] [] gms_tie
      = .ok [⟨1, 10, 20, 7, some 50⟩] ∧
    dget (build_team_names tn_tie [(123, 10)] []) (10, "B") = some 21 ∧
    (⟨1, 10, 20, 7, some 50⟩ : TEPRow).teamNameId ≠ 21 := by
  refine ⟨rfl, rfl, by decide⟩

/-- Replacing, by primary key, the single row matching a predicate with
another row matching it leaves that row as the predicate's only match,
provided primary keys are unique. -/
theorem filter_map_update (p : EventRow → Bool) (e1 : EventRow) (hp1 : p e1 = true) :
    ∀ (l : List EventRow) (e0 : EventRow),
      (l.map (·.pk)).Nodup → l.filter p = [e0] →
      (l.map (fun r => if r.pk = e0.pk then e1 else r)).filter p = [e1] := by
  intro l
  induction l with
  | nil =>
      intro e0 _ hfil
      cases hfil
  | cons r rest ih =>
      intro e0 hpk hfil
      simp only [List.map_cons, List.nodup_cons] at hpk
      rw [List.filter_cons] at hfil
      by_cases hγr : p r = true
      · rw [if_pos hγr] at hfil
        obtain ⟨rfl, hrest⟩ := (List.cons.injEq _ _ _ _).mp hfil
        have htail : (rest.map (fun r2 => if r2.pk = r.pk then e1 else r2)).filter p = [] := by
          rw [List.filter_eq_nil_iff]
          intro y hy
          rcases List.mem_map.mp hy with ⟨s, hs, rfl⟩
          have hspk : ¬ s.pk = r.pk := by
            intro hcon
            exact hpk.1 (List.mem_map.mpr ⟨s, hs, hcon⟩)
          rw [if_neg hspk]
          exact List.filter_eq_nil_iff.mp hrest s hs
        simp [hp1, htail]
      · rw [if_neg hγr] at hfil
        have he0 : e0 ∈ rest := by
          have : e0 ∈ rest.filter p := by
            rw [hfil]
            exact List.mem_singleton_self e0
          exact (List.mem_filter.mp this).1
        have hrpk : ¬ r.pk = e0.pk := by
          intro hcon
          exact hpk.1 (List.mem_map.mpr ⟨e0, he0, hcon.symm⟩)
        simp only [List.map_cons, if_neg hrpk, List.filter_cons, if_neg hγr]
        exact ih e0 hpk.2 hfil

/-- When the table already holds an event for a (game, date) pair, a
conflict-ignoring event insert adds no further row for that pair. -/
theorem insert_events_filter_existing (G today : Nat) :
    ∀ (news : List EventNew) (t : List EventRow),
      (∃ x ∈ t, x.gameId = G ∧ x.date = today) →
      (insert_events t news).filter (fun r => decide (r.gameId = G ∧ r.date = today))
        = t.filter (fun r => decide (r.gameId = G ∧ r.date = today)) := by
  intro news
  induction news with
  | nil => intro t _; rfl
  | cons n ns ih =>
      intro t hex
      unfold insert_events
      rw [bulkIgnore_cons]
      by_cases hc : t.any (event_key n) = true
      · rw [if_pos hc]
        exact ih t hex
      · rw [if_neg hc]
        have hkey : ¬(n.game_id = G ∧ n.date = today) := by
          rintro ⟨h1, h2⟩
          obtain ⟨x, hx, hxg, hxd⟩ := hex
          apply hc
          rw [List.any_eq_true]
          refine ⟨x, hx, ?_⟩
          unfold event_key
          rw [decide_eq_true_eq]
          exact ⟨by rw [hxg, h1], by rw [hxd, h2]⟩
        have := ih (t ++ [(⟨freshPk (t.map (·.pk)), n.game_id, n.date, none,
          n.description, some n.quizmaster_id, none⟩ : EventRow)])
          (by obtain ⟨x, hx, hxx⟩ := hex; exact ⟨x, List.mem_append_left _ hx, hxx⟩)
        unfold insert_events at this
        rw [this, List.filter_append]
        have hrow : ([(⟨freshPk (t.map (·.pk)), n.game_id, n.date, none,
            n.description, some n.quizmaster_id, none⟩ : EventRow)]).filter
            (fun r => decide (r.gameId = G ∧ r.date = today)) = [] := by
          simp only [List.filter_cons, List.filter_nil]
          rw [if_neg (by simpa using hkey)]
        rw [hrow, List.append_nil]

/-- When an unattended autoscrape step reports a resolved placeholder,
the still-open placeholder it loaded was the unique (game, today,
quizmaster-null) row and it was updated in place. -/
theorem autoscrape_event_some_char (events : List EventRow) (edata : List EventData)
    (G : Nat) (qms : Dict String Nat) (gms : Dict (String × Option Nat) GameRow)
    (today now : Nat) (events2 : List EventRow) (rem : List EventData)
    (p : Nat) (mdata : Option EventData)
    (h : _process_autoscrape_event events edata (some G) qms gms false today now
      = .ok (events2, rem, some p, mdata)) :
    ∃ ev me qpk,
      events.filter (fun r =>
        decide (some r.gameId = some G ∧ r.date = today ∧ r.quizmasterId = none)) = [ev] ∧
      p = ev.pk ∧ mdata = some me ∧ dget qms me.quizmaster = some qpk ∧
      events2 = events.map (fun r => if r.pk = ev.pk then
        { ev with
            endDatetime := some now
            description := me.description
            quizmasterId := some qpk }
        else r) := by
  unfold _process_autoscrape_event at h
  simp only [Bool.false_eq_true, if_false] at h
  obtain ⟨matching, hm, h⟩ := except_bind_eq_ok h
  match matching with
  | [] =>
      simp only [pure, Except.pure, Except.ok.injEq, Prod.mk.injEq] at h
      exact absurd h.2.2.1.symm (by simp)
  | (i, me) :: [] =>
      simp only [] at h
      cases hhits : events.filter (fun r =>
          decide (some r.gameId = some G ∧ r.date = today ∧ r.quizmasterId = none)) with
      | nil =>
          rw [hhits] at h
          cases h
      | cons ev evtl =>
          cases evtl with
          | nil =>
              rw [hhits] at h
              obtain ⟨qpk, hq, h⟩ := except_bind_eq_ok h
              simp only [pure, Except.pure, Except.ok.injEq, Prod.mk.injEq] at h
              obtain ⟨h1, -, h3, h4⟩ := h
              refine ⟨ev, me, qpk, rfl, ?_, h4.symm, dgetE_ok hq, h1.symm⟩
              exact (Option.some.injEq _ _ ▸ h3).symm
          | cons ev2 evtl2 =>
              rw [hhits] at h
              cases h
  | x :: y :: rest =>
      cases h

/-- C7: in a store holding a placeholder event (end timestamp and
quizmaster null, dated today) for game G, an unattended reconcile call
targeting G that reports a resolved placeholder has updated that same
event row in place — same primary key, end timestamp, description and
quizmaster filled in — and the store still holds exactly one event for
that (game, date) pair. -/
theorem autoscrape_updates_placeholder_in_place
    (st : DBState) (url : String) (data : PageData) (G today now : Nat)
    (st1 : DBState) (r : Bool) (p : Nat) (dd : Option EventData) (e0 : EventRow)
    (hnd : (st.events.map (·.pk)).Nodup)
    (hp : st.events.filter (fun x => decide (x.gameId = G ∧ x.date = today)) = [e0])
    (he : e0.endDatetime = none)
    (hq : e0.quizmasterId = none)
    (h : push_to_db st url false data (some G) today now = .ok (st1, r, some p, dd)) :
    r = true ∧ p = e0.pk ∧
    ∃ me qpk, dd = some me ∧
      st1.events.filter (fun x => decide (x.gameId = G ∧ x.date = today))
        = [{ e0 with
              endDatetime := some now
              description := me.description
              quizmasterId := some qpk }] := by
  unfold push_to_db at h
  by_cases hc : data.event_data = [] ∧ false = false
  · rw [if_pos hc] at h
    simp only [Except.ok.injEq, Prod.mk.injEq] at h
    exact absurd h.2.2.1.symm (by simp)
  · rw [if_neg hc] at h
    simp only [] at h
    obtain ⟨gr, hgr, h⟩ := except_bind_eq_ok h
    obtain ⟨tasks, htasks, h⟩ := except_bind_eq_ok h
    obtain ⟨au, hau, h⟩ := except_bind_eq_ok h
    obtain ⟨au1, au2, au3, au4⟩ := au
    obtain ⟨ev, hev, h⟩ := except_bind_eq_ok h
    obtain ⟨ev1, ev2⟩ := ev
    obtain ⟨ot, hot, h⟩ := except_bind_eq_ok h
    obtain ⟨gu, hgu, h⟩ := except_bind_eq_ok h
    obtain ⟨teps1, hteps1, h⟩ := except_bind_eq_ok h
    obtain ⟨teps2, hteps2, h⟩ := except_bind_eq_ok h
    simp only [pure, Except.pure, Except.ok.injEq, Prod.mk.injEq] at h
    obtain ⟨hst1, hr, hu, hd⟩ := h
    subst hu
    obtain ⟨ev0, me, qpk, hhits, hppk, hmd, hqget, hmap⟩ :=
      autoscrape_event_some_char st.events data.event_data G
        (_process_quizmasters st.quizmasters data.event_data).2 gr.2 today now
        au1 au2 p au4 hau
    have hev0_strong : ev0 ∈ st.events.filter (fun x =>
        decide (some x.gameId = some G ∧ x.date = today ∧ x.quizmasterId = none)) := by
      rw [hhits]
      exact List.mem_singleton_self ev0
    obtain ⟨hev0_mem, hev0_cond⟩ := List.mem_filter.mp hev0_strong
    rw [decide_eq_true_eq] at hev0_cond
    have hev0_eq : e0 = ev0 := by
      have : ev0 ∈ st.events.filter (fun x => decide (x.gameId = G ∧ x.date = today)) := by
        refine List.mem_filter.mpr ⟨hev0_mem, ?_⟩
        rw [decide_eq_true_eq]
        exact ⟨by simpa using hev0_cond.1, hev0_cond.2.1⟩
      rw [hp] at this
      exact (List.mem_singleton.mp this).symm
    subst hev0_eq
    have he0_mem : e0 ∈ st.events := hev0_mem
    have he0_props : e0.gameId = G ∧ e0.date = today :=
      ⟨by simpa using hev0_cond.1, hev0_cond.2.1⟩
    unfold _process_events at hev
    obtain ⟨rows, hrows, hev⟩ := except_bind_eq_ok hev
    simp only [] at hev
    obtain ⟨keys, hkeys, hev⟩ := except_bind_eq_ok hev
    simp only [pure, Except.pure, Except.ok.injEq, Prod.mk.injEq] at hev
    obtain ⟨hev1, -⟩ := hev
    refine ⟨hr.symm, hppk, me, qpk, hd.symm.trans hmd, ?_⟩
    have hst1ev : st1.events = ev1 := by
      rw [← hst1]
    rw [hst1ev, ← hev1, hmap]
    have hupd : (st.events.map (fun x => if x.pk = e0.pk then
        { e0 with
            endDatetime := some now
            description := me.description
            quizmasterId := some qpk }
        else x)).filter (fun x => decide (x.gameId = G ∧ x.date = today))
        = [{ e0 with
              endDatetime := some now
              description := me.description
              quizmasterId := some qpk }] := by
      exact filter_map_update _ _
        (by rw [decide_eq_true_eq]; exact ⟨he0_props.1, he0_props.2⟩) st.events e0 hnd hp
    rw [← hupd]
    apply insert_events_filter_existing G today rows
    refine ⟨{ e0 with
        endDatetime := some now
        description := me.description
        quizmasterId := some qpk }, ?_, he0_props.1, he0_props.2⟩
    refine List.mem_map.mpr ⟨e0, he0_mem, ?_⟩
    rw [if_pos rfl]

/-- Witness for C7: the `st_b0` placeholder (event pk 1) is resolved in
place by the unattended `page_b` reconcile. -/
theorem autoscrape_updates_placeholder_in_place_witness :
    true = true ∧ (1 : Nat) = (⟨1, 1, 7, none, none, none, none⟩ : EventRow).pk ∧
    ∃ me qpk, (some ed_b : Option EventData) = some me ∧
      st_b1.events.filter (fun x => decide (x.gameId = 1 ∧ x.date = 7))
        = [{ (⟨1, 1, 7, none, none, none, none⟩ : EventRow) with
              endDatetime := some 99
              description := me.description
              quizmasterId := some qpk }] := by
  exact autoscrape_updates_placeholder_in_place st_b0 "u" page_b 1 7 99 st_b1 true 1
    (some ed_b) ⟨1, 1, 7, none, none, none, none⟩ (by decide) (by decide) rfl rfl rfl

/-- A conflict surviving an append still conflicts. -/
theorem any_append_left {α : Type} (l e : List α) (p : α → Bool) (h : l.any p = true) :
    (l ++ e).any p = true := by
  rw [List.any_append, h, Bool.true_or]

/-- `bulkIgnore` only appends rows, each materialised from a pending value. -/
theorem bulkIgnore_decomp {ν ρ : Type} (keyMatch : ν → ρ → Bool) (mk : Nat → ν → ρ)
    (pkOf : ρ → Nat) :
    ∀ (ns : List ν) (t : List ρ),
      ∃ ext, bulkIgnore keyMatch mk pkOf t ns = t ++ ext ∧
        ∀ r ∈ ext, ∃ n ∈ ns, ∃ q, r = mk q n := by
  intro ns
  induction ns with
  | nil => intro t; exact ⟨[], by simp [bulkIgnore_nil], by simp⟩
  | cons n rest ih =>
      intro t
      rw [bulkIgnore_cons]
      by_cases hc : t.any (keyMatch n) = true
      · rw [if_pos hc]
        obtain ⟨ext, he, hr⟩ := ih t
        exact ⟨ext, he, fun r hrr => by
          obtain ⟨n2, hn2, q, hq⟩ := hr r hrr
          exact ⟨n2, List.mem_cons_of_mem _ hn2, q, hq⟩⟩
      · rw [if_neg hc]
        obtain ⟨ext, he, hr⟩ := ih (t ++ [mk (freshPk (t.map pkOf)) n])
        refine ⟨mk (freshPk (t.map pkOf)) n :: ext, by simpa [List.append_assoc] using he, ?_⟩
        intro r hrr
        rcases List.mem_cons.mp hrr with rfl | hrr2
        · exact ⟨n, List.mem_cons_self _ _, freshPk (t.map pkOf), rfl⟩
        · obtain ⟨n2, hn2, q, hq⟩ := hr r hrr2
          exact ⟨n2, List.mem_cons_of_mem _ hn2, q, hq⟩

/-- After a conflict-ignoring insert, every pending value conflicts with
the resulting table. -/
theorem bulkIgnore_present {ν ρ : Type} (keyMatch : ν → ρ → Bool) (mk : Nat → ν → ρ)
    (pkOf : ρ → Nat) (hself : ∀ q n, keyMatch n (mk q n) = true) :
    ∀ (ns : List ν) (t : List ρ) (n : ν), n ∈ ns →
      (bulkIgnore keyMatch mk pkOf t ns).any (keyMatch n) = true := by
  intro ns
  induction ns with
  | nil => intro t n hn; cases hn
  | cons n2 rest ih =>
      intro t n hn
      rw [bulkIgnore_cons]
      by_cases hc : t.any (keyMatch n2) = true
      · rw [if_pos hc]
        rcases List.mem_cons.mp hn with rfl | hn2
        · obtain ⟨ext, he, -⟩ := bulkIgnore_decomp keyMatch mk pkOf rest t
          rw [he]
          exact any_append_left _ _ _ hc
        · exact ih t n hn2
      · rw [if_neg hc]
        rcases List.mem_cons.mp hn with rfl | hn2
        · obtain ⟨ext, he, -⟩ :=
            bulkIgnore_decomp keyMatch mk pkOf rest (t ++ [mk (freshPk (t.map pkOf)) n])
          rw [he]
          apply any_append_left
          rw [List.any_append]
          have : ([mk (freshPk (t.map pkOf)) n]).any (keyMatch n) = true := by
            simp [hself]
          rw [this, Bool.or_true]
        · exact ih _ n hn2

/-- A conflict-ignoring insert whose every pending value already
conflicts is the identity. -/
theorem bulkIgnore_noop {ν ρ : Type} (keyMatch : ν → ρ → Bool) (mk : Nat → ν → ρ)
    (pkOf : ρ → Nat) :
    ∀ (ns : List ν) (t : List ρ),
      (∀ n ∈ ns, t.any (keyMatch n) = true) →
      bulkIgnore keyMatch mk pkOf t ns = t := by
  intro ns
  induction ns with
  | nil => intro t _; rfl
  | cons n rest ih =>
      intro t hall
      rw [bulkIgnore_cons, if_pos (hall n (List.mem_cons_self _ _))]
      exact ih t (fun x hx => hall x (List.mem_cons_of_mem _ hx))

/-- A lookup scans the left dictionary first. -/
theorem dget_append {κ ν : Type} [DecidableEq κ] :
    ∀ (d1 d2 : Dict κ ν) (k : κ),
      dget (d1 ++ d2) k = match dget d1 k with
                          | some v => some v
                          | none => dget d2 k := by
  intro d1
  induction d1 with
  | nil => intro d2 k; rfl
  | cons kv rest ih =>
      intro d2 k
      by_cases h : kv.1 = k
      · rw [List.cons_append, dget, if_pos h, dget, if_pos h]
      · rw [List.cons_append, dget, if_neg h, dget, if_neg h]
        exact ih d2 k

/-- A key is unbound exactly when it is not among the keys. -/
theorem dget_none_iff {κ ν : Type} [DecidableEq κ] :
    ∀ (d : Dict κ ν) (k : κ), dget d k = none ↔ k ∉ d.map (·.1) := by
  intro d
  induction d with
  | nil => intro k; simp [dget]
  | cons kv rest ih =>
      intro k
      by_cases h : kv.1 = k
      · rw [dget, if_pos h]
        simp [h]
      · rw [dget, if_neg h]
        simp only [List.map_cons, List.mem_cons]
        rw [ih k]
        constructor
        · intro h2 h3
          rcases h3 with h4 | h4
          · exact h (h4.symm)
          · exact h2 h4
        · intro h2 h3
          exact h2 (Or.inr h3)

/-- Inserting an unbound key appends the binding. -/
theorem dinsert_fresh {κ ν : Type} [DecidableEq κ] :
    ∀ (d : Dict κ ν) (k : κ) (v : ν), dget d k = none → dinsert d k v = d ++ [(k, v)] := by
  intro d
  induction d with
  | nil => intro k v _; rfl
  | cons kv rest ih =>
      intro k v h
      rw [dget] at h
      by_cases h2 : kv.1 = k
      · rw [if_pos h2] at h
        cases h
      · rw [if_neg h2] at h
        rw [dinsert, if_neg h2, List.cons_append, ih k v h]

/-- Folding fresh, pairwise distinct bindings into a dictionary appends
them in order. -/
theorem foldl_dinsert_fresh {κ ν : Type} [DecidableEq κ] :
    ∀ (ps : List (κ × ν)) (acc : Dict κ ν),
      (∀ kv ∈ ps, dget acc kv.1 = none) → (ps.map (·.1)).Nodup →
      ps.foldl (fun d p => dinsert d p.1 p.2) acc = acc ++ ps := by
  intro ps
  induction ps with
  | nil => intro acc _ _; simp
  | cons p rest ih =>
      intro acc hfresh hnd
      simp only [List.map_cons, List.nodup_cons] at hnd
      rw [List.foldl_cons, dinsert_fresh acc p.1 p.2 (hfresh p (List.mem_cons_self _ _))]
      rw [ih (acc ++ [(p.1, p.2)]) ?_ hnd.2]
      · simp
      · intro kv hkv
        rw [dget_append]
        rw [hfresh kv (List.mem_cons_of_mem _ hkv)]
        have : ¬ ((p.1, p.2) : κ × ν).1 = kv.1 := by
          intro hcon
          exact hnd.1 (List.mem_map.mpr ⟨kv, hkv, hcon.symm⟩)
        simp only [dget, if_neg this]

/-- `find?` commutes with a map that preserves the predicate. -/
theorem find?_map_pred {α : Type} (f : α → α) (p : α → Bool) (hp : ∀ w, p (f w) = p w) :
    ∀ l : List α, (l.map f).find? p = (l.find? p).map f := by
  intro l
  induction l with
  | nil => rfl
  | cons a rest ih =>
      by_cases h : p a = true
      · rw [List.map_cons, List.find?_cons_of_pos _ (by rw [hp]; exact h),
          List.find?_cons_of_pos _ h, Option.map_some']
      · rw [List.map_cons, List.find?_cons_of_neg _ (by rw [hp]; exact h),
          List.find?_cons_of_neg _ h, ih]

/-- Mapping with a projection-preserving function preserves the
projection of every element. -/
theorem map_map_eq {α β : Type} (f : α → α) (g : α → β) (h : ∀ w, g (f w) = g w) :
    ∀ l : List α, (l.map f).map g = l.map g := by
  intro l
  induction l with
  | nil => rfl
  | cons a rest ih => simp only [List.map_cons, h, ih]

/-- After the venue upsert, the first row carrying the scraped URL is
the returned venue with the scraped name and fresh timestamp. -/
theorem venue_step_find (vt : List VenueRow) (url name : String) (now : Nat)
    (vt2 : List VenueRow) (p : Nat)
    (h : _create_or_update_venue vt url name now = (vt2, p)) :
    vt2.find? (fun v => decide (v.url = url)) = some ⟨p, name, url, now⟩ := by
  unfold _create_or_update_venue at h
  cases hfind : vt.find? (fun v => decide (v.url = url)) with
  | none =>
      rw [hfind] at h
      obtain ⟨h1, h2⟩ := Prod.mk.injEq _ _ _ _ ▸ h
      subst h1
      rw [List.find?_append, hfind]
      simp only [Option.none_or]
      rw [List.find?_cons_of_pos _ (by simp)]
      rw [h2]
  | some v =>
      rw [hfind] at h
      have hvurl : v.url = url := by
        have := List.find?_some hfind
        simpa using this
      obtain ⟨h1, h2⟩ := Prod.mk.injEq _ _ _ _ ▸ h
      subst h1
      subst h2
      by_cases hname : v.name = name
      · rw [if_pos hname]
        rw [find?_map_pred _ _ (by intro w; by_cases hw : w.pk = v.pk <;> simp [hw]) vt]
        rw [hfind, Option.map_some']
        simp [hname, hvurl]
      · rw [if_neg hname]
        rw [List.map_map]
        rw [find?_map_pred _ _ (by
          intro w
          by_cases hw : w.pk = v.pk <;> simp [Function.comp, hw]) vt]
        rw [hfind, Option.map_some']
        simp [Function.comp, hvurl]

/-- Re-running the venue upsert against a store whose URL row already
carries the scraped name only refreshes the timestamp; the primary keys
and the returned pk are unchanged. -/
theorem venue_step_found (vt : List VenueRow) (url name : String) (now t0 p : Nat)
    (hfind : vt.find? (fun v => decide (v.url = url)) = some ⟨p, name, url, t0⟩) :
    _create_or_update_venue vt url name now
      = (vt.map (fun w => if w.pk = p then { w with lastScrapedAt := now } else w), p) := by
  unfold _create_or_update_venue
  rw [hfind]
  simp

/-- Re-running the game-type upsert against its own output changes
nothing: the inserts all conflict and the re-read lookup is identical. -/
theorem game_types_idem (t0 : List GameTypeRow) (data : PageData) (t1 : List GameTypeRow)
    (d1 : Dict String Nat) (h : _process_game_types t0 data = (t1, d1)) :
    _process_game_types t1 data = (t1, d1) := by
  unfold _process_game_types at h ⊢
  simp only [] at h ⊢
  obtain ⟨h1, h2⟩ := Prod.mk.injEq _ _ _ _ ▸ h
  have hnoop : insert_game_types t1
      (dedupList (dedupList (data.venue_data.games.map (·.type))
        ++ dedupList (data.event_data.map (·.game_type)))) = t1 := by
    apply bulkIgnore_noop
    intro n hn
    rw [← h1]
    exact bulkIgnore_present _ _ _ (by intro q n2; simp [game_type_key]) _ t0 n hn
  rw [h1] at h2
  rw [hnoop, h2]

/-- Re-running the quizmaster upsert against its own output changes
nothing. -/
theorem quizmasters_idem (t0 : List QuizmasterRow) (ed : List EventData)
    (t1 : List QuizmasterRow) (d1 : Dict String Nat)
    (h : _process_quizmasters t0 ed = (t1, d1)) :
    _process_quizmasters t1 ed = (t1, d1) := by
  unfold _process_quizmasters at h ⊢
  simp only [] at h ⊢
  obtain ⟨h1, h2⟩ := Prod.mk.injEq _ _ _ _ ▸ h
  have hnoop : insert_quizmasters t1 (dedupList (ed.map (·.quizmaster))) = t1 := by
    apply bulkIgnore_noop
    intro n hn
    rw [← h1]
    exact bulkIgnore_present _ _ _ (by intro q n2; simp [quizmaster_key]) _ t0 n hn
  rw [h1] at h2
  rw [hnoop, h2]

/-- A conflict keeps holding after further conflict-ignoring inserts. -/
theorem bulkIgnore_any_mono {ν ρ : Type} (keyMatch : ν → ρ → Bool) (mk : Nat → ν → ρ)
    (pkOf : ρ → Nat) (p : ρ → Bool) (ns : List ν) (t : List ρ) (h : t.any p = true) :
    (bulkIgnore keyMatch mk pkOf t ns).any p = true := by
  obtain ⟨ext, he, -⟩ := bulkIgnore_decomp keyMatch mk pkOf ns t
  rw [he]
  exact any_append_left _ _ _ h

/-- Re-running the game upsert against its own output changes nothing:
all official and custom inserts conflict, and the re-read lookup — built
from the same table with the same conditions — is identical. -/
theorem games_idem (g0 : List GameRow) (gtt : List GameTypeRow) (data : PageData)
    (tyd : Dict String Nat) (vpk : Nat) (g1 : List GameRow)
    (gms : Dict (String × Option Nat) GameRow)
    (h : _process_games g0 gtt data tyd vpk = .ok (g1, gms)) :
    _process_games g1 gtt data tyd vpk = .ok (g1, gms) := by
  unfold _process_games at h ⊢
  obtain ⟨OV, hov, h⟩ := except_bind_eq_ok h
  try simp only [] at h
  obtain ⟨CV, hcv, h⟩ := except_bind_eq_ok h
  try simp only [] at h
  obtain ⟨gmsv, hfold, h⟩ := except_bind_eq_ok h
  simp only [pure, Except.pure, Except.ok.injEq, Prod.mk.injEq] at h
  obtain ⟨hg1, hgm⟩ := h
  have hno1 : insert_official_games vpk g1 (OV.map (·.1)) = g1 := by
    apply bulkIgnore_noop
    intro n hn
    rw [← hg1]
    unfold insert_custom_games
    apply bulkIgnore_any_mono
    exact bulkIgnore_present _ _ _
      (by intro q n2; simp [official_game_key]) _ g0 n hn
  have hno2 : insert_custom_games vpk g1
      (dedupList (List.map (fun k => k.1)
        (List.filter (fun k => decide (k ∉ dedupList (OV.map (·.2)))) (dedupList CV)))) = g1 := by
    apply bulkIgnore_noop
    intro n hn
    rw [← hg1]
    exact bulkIgnore_present _ _ _
      (by intro q n2; simp [custom_game_key]) _ _ n hn
  rw [hg1] at hfold
  simp only [hov, except_ok_bind, hcv]
  unfold insert_official_games at hno1 ⊢
  rw [hno1]
  unfold insert_custom_games at hno2 ⊢
  rw [hno2]
  simp only [hfold, except_ok_bind, hgm]
  rfl

/-- Membership in an insertion-sorted list. -/
theorem insert_sorted_str_mem (s x : String) :
    ∀ l : List String, x ∈ insert_sorted_str s l ↔ x = s ∨ x ∈ l := by
  intro l
  induction l with
  | nil => simp [insert_sorted_str]
  | cons a rest ih =>
      unfold insert_sorted_str
      by_cases h : a < s
      · rw [if_pos h]
        simp only [List.mem_cons, ih]
        tauto
      · rw [if_neg h]
        simp only [List.mem_cons]

/-- Length of an insertion-sorted list. -/
theorem insert_sorted_str_length (s : String) :
    ∀ l : List String, (insert_sorted_str s l).length = l.length + 1 := by
  intro l
  induction l with
  | nil => rfl
  | cons a rest ih =>
      unfold insert_sorted_str
      by_cases h : a < s
      · rw [if_pos h]
        simp [ih]
      · rw [if_neg h]
        simp

/-- Insertion sort preserves key uniqueness. -/
theorem insert_sorted_str_nodup (s : String) :
    ∀ l : List String, s ∉ l → l.Nodup → (insert_sorted_str s l).Nodup := by
  intro l
  induction l with
  | nil => intro _ _; simp [insert_sorted_str]
  | cons a rest ih =>
      intro hs hnd
      simp only [List.mem_cons, not_or] at hs
      simp only [List.nodup_cons] at hnd
      unfold insert_sorted_str
      by_cases h : a < s
      · rw [if_pos h]
        simp only [List.nodup_cons]
        refine ⟨?_, ih hs.2 hnd.2⟩
        intro hmem
        rcases (insert_sorted_str_mem s a rest).mp hmem with h2 | h2
        · exact hs.1 h2.symm
        · exact hnd.1 h2
      · rw [if_neg h]
        simp only [List.nodup_cons, List.mem_cons, not_or]
        exact ⟨⟨fun h2 => hs.1 h2, hs.2⟩, hnd.1, hnd.2⟩

/-- Membership is preserved by `sorted_strs`. -/
theorem sorted_strs_mem (x : String) :
    ∀ l : List String, x ∈ sorted_strs l ↔ x ∈ l := by
  intro l
  induction l with
  | nil => simp [sorted_strs]
  | cons a rest ih =>
      unfold sorted_strs at ih ⊢
      rw [List.foldr_cons, insert_sorted_str_mem]
      simp [ih]

/-- Length is preserved by `sorted_strs`. -/
theorem sorted_strs_length :
    ∀ l : List String, (sorted_strs l).length = l.length := by
  intro l
  induction l with
  | nil => rfl
  | cons a rest ih =>
      unfold sorted_strs at ih ⊢
      rw [List.foldr_cons, insert_sorted_str_length]
      simp [ih]

/-- Key uniqueness is preserved by `sorted_strs`. -/
theorem sorted_strs_nodup :
    ∀ l : List String, l.Nodup → (sorted_strs l).Nodup := by
  intro l
  induction l with
  | nil => intro _; simp [sorted_strs]
  | cons a rest ih =>
      intro hnd
      simp only [List.nodup_cons] at hnd
      unfold sorted_strs at ih ⊢
      rw [List.foldr_cons]
      apply insert_sorted_str_nodup
      · intro hmem
        exact hnd.1 ((sorted_strs_mem a rest).mp hmem)
      · exact ih hnd.2

/-- The deduplicated list has no duplicates. -/
theorem dedupList_nodup {α : Type} [DecidableEq α] (l : List α) : (dedupList l).Nodup := by
  have haux : ∀ (l2 : List α) (acc : List α), acc.Nodup →
      (l2.foldl (fun acc a => if a ∈ acc then acc else acc ++ [a]) acc).Nodup := by
    intro l2
    induction l2 with
    | nil => intro acc h; exact h
    | cons a rest ih =>
        intro acc h
        rw [List.foldl_cons]
        by_cases hm : a ∈ acc
        · rw [if_pos hm]
          exact ih acc h
        · rw [if_neg hm]
          apply ih
          simp [List.nodup_append, h, hm]
  exact haux l [] (by simp)

/-- `create_blank_teams` appends `count` fresh guest rows. -/
theorem create_blank_teams_spec :
    ∀ (k : Nat) (t : List TeamRow),
      (create_blank_teams t k).1 = t ++ (create_blank_teams t k).2 ∧
      (∀ r ∈ (create_blank_teams t k).2, r.teamId = none) ∧
      (create_blank_teams t k).2.length = k := by
  intro k
  induction k with
  | zero => intro t; exact ⟨by simp [create_blank_teams], by simp [create_blank_teams], rfl⟩
  | succ n ih =>
      intro t
      unfold create_blank_teams
      obtain ⟨h1, h2, h3⟩ := ih (t ++ [{ pk := freshPk (t.map (·.pk)), teamId := none }])
      refine ⟨?_, ?_, ?_⟩
      · simp only []
        rw [h1]
        simp
      · intro r hr
        simp only [] at hr
        rcases List.mem_cons.mp hr with rfl | hr2
        · rfl
        · exact h2 r hr2
      · simp only [List.length_cons, h3]

/-- A plain guest-name `bulk_create` appends one row per pending value,
preserving name, team and guest flag. -/
theorem bulk_create_guest_char :
    ∀ (news : List TeamNameNew) (t t2 : List TeamNameRow),
      bulk_create_guest_names t news = .ok t2 →
      ∃ ext, t2 = t ++ ext ∧
        List.Forall₂ (fun (r : TeamNameRow) (n : TeamNameNew) =>
          r.name = n.name ∧ r.teamId = n.team_id ∧ r.guest = n.guest) ext news := by
  intro news
  induction news with
  | nil =>
      intro t t2 h
      unfold bulk_create_guest_names at h
      cases h
      exact ⟨[], by simp, List.Forall₂.nil⟩
  | cons n rest ih =>
      intro t t2 h
      unfold bulk_create_guest_names at h
      split at h
      · cases h
      · obtain ⟨ext, he, hf⟩ := ih _ _ h
        refine ⟨⟨freshPk (t.map (·.pk)), n.name, n.team_id, n.guest⟩ :: ext, ?_, ?_⟩
        · rw [he]
          simp
        · exact List.Forall₂.cons ⟨rfl, rfl, rfl⟩ hf

/-- `create_blank_teams` with count zero is the identity. -/
theorem create_blank_teams_zero (t : List TeamRow) : create_blank_teams t 0 = (t, []) := rfl

/-- Sorting the empty list. -/
theorem sorted_strs_nil : sorted_strs [] = [] := rfl

/-- A guest-name `bulk_create` of nothing succeeds and changes nothing. -/
theorem bulk_create_guest_nil (t : List TeamNameRow) :
    bulk_create_guest_names t [] = .ok t := rfl

/-- Unioning with an empty right operand changes nothing. -/
theorem dunion_nil {κ ν : Type} [DecidableEq κ] (d : Dict κ ν) : dunion d [] = d := rfl

/-- When the autoscrape step resolved nothing, the score-update pass
leaves the participation table untouched. -/
theorem autoscrape_teps_none (t : List TEPRow) (a : List TeamRow) (b : List TeamNameRow)
    (m : Bool) (u : Option Nat) : _process_autoscrape_teps t a b m u none = .ok t := by
  cases m <;> rfl

/-- A manual run skips the autoscrape event step entirely. -/
theorem autoscrape_manual_id (ev : List EventRow) (ed : List EventData) (gid : Option Nat)
    (qms : Dict String Nat) (gms : Dict (String × Option Nat) GameRow) (today now : Nat) :
    _process_autoscrape_event ev ed gid qms gms true today now = .ok (ev, ed, none, none) := rfl

/-- When no scraped event matches the autoscrape target, the autoscrape
event step changes nothing. -/
theorem autoscrape_nil_id (ev : List EventRow) (ed : List EventData) (gid : Option Nat)
    (qms : Dict String Nat) (gms : Dict (String × Option Nat) GameRow) (today now : Nat)
    (hm : filterME (fun p => do
        let g ← _match_game_to_event gms p.2.game_type (weekday p.2.date)
        pure (decide (gid = some g.pk)))
      ed.enum = .ok []) :
    _process_autoscrape_event ev ed gid qms gms false today now = .ok (ev, ed, none, none) := by
  unfold _process_autoscrape_event
  simp only [Bool.false_eq_true, if_false]
  rw [hm, except_ok_bind]
  rfl

/-- When exactly one scraped event matches the autoscrape target, a
successful autoscrape event step loaded a unique still-open placeholder
and rewrote it in place. -/
theorem autoscrape_single_resolved (events : List EventRow) (ed : List EventData)
    (gid : Option Nat) (qms : Dict String Nat) (gms : Dict (String × Option Nat) GameRow)
    (today now : Nat) (i : Nat) (me : EventData) (ev2 : List EventRow)
    (rem : List EventData) (u : Option Nat) (md : Option EventData)
    (hm : filterME (fun p => do
        let g ← _match_game_to_event gms p.2.game_type (weekday p.2.date)
        pure (decide (gid = some g.pk)))
      ed.enum = .ok [(i, me)])
    (h : _process_autoscrape_event events ed gid qms gms false today now
      = .ok (ev2, rem, u, md)) :
    ∃ ev qpk,
      events.filter (fun r =>
        decide (some r.gameId = gid ∧ r.date = today ∧ r.quizmasterId = none)) = [ev] ∧
      dget qms me.quizmaster = some qpk ∧
      ev2 = events.map (fun r => if r.pk = ev.pk then
        { ev with
            endDatetime := some now
            description := me.description
            quizmasterId := some qpk }
        else r) := by
  unfold _process_autoscrape_event at h
  simp only [Bool.false_eq_true, if_false] at h
  rw [hm, except_ok_bind] at h
  simp only [] at h
  cases hhits : events.filter (fun r =>
      decide (some r.gameId = gid ∧ r.date = today ∧ r.quizmasterId = none)) with
  | nil =>
      rw [hhits] at h
      cases h
  | cons ev evtl =>
      cases evtl with
      | nil =>
          rw [hhits] at h
          obtain ⟨qpk, hq, h⟩ := except_bind_eq_ok h
          simp only [pure, Except.pure, Except.ok.injEq, Prod.mk.injEq] at h
          exact ⟨ev, qpk, rfl, dgetE_ok hq, h.1.symm⟩
      | cons ev2b evtl2 =>
          rw [hhits] at h
          cases h
/-- When exactly one scraped event matches the autoscrape target but no
still-open placeholder exists, the autoscrape event step fails. -/
theorem autoscrape_single_nohits (events : List EventRow) (ed : List EventData)
    (gid : Option Nat) (qms : Dict String Nat) (gms : Dict (String × Option Nat) GameRow)
    (today now : Nat) (i : Nat) (me : EventData)
    (hm : filterME (fun p => do
        let g ← _match_game_to_event gms p.2.game_type (weekday p.2.date)
        pure (decide (gid = some g.pk)))
      ed.enum = .ok [(i, me)])
    (hh : events.filter (fun r =>
        decide (some r.gameId = gid ∧ r.date = today ∧ r.quizmasterId = none)) = []) :
    _process_autoscrape_event events ed gid qms gms false today now
      = .error "Event.DoesNotExist" := by
  unfold _process_autoscrape_event
  simp only [Bool.false_eq_true, if_false]
  rw [hm, except_ok_bind]
  simp only []
  rw [hh]

/-- Replacing the unique row a filter keeps with a row the filter drops
empties the filter. -/
theorem filter_map_update_to_nil (p : EventRow → Bool) (e1 : EventRow) (hp1 : p e1 = false) :
    ∀ (l : List EventRow) (e0 : EventRow), l.filter p = [e0] →
      (l.map (fun r => if r.pk = e0.pk then e1 else r)).filter p = [] := by
  intro l e0 hfil
  rw [List.filter_eq_nil_iff]
  intro y hy
  rcases List.mem_map.mp hy with ⟨s, hs, rfl⟩
  by_cases hspk : s.pk = e0.pk
  · rw [if_pos hspk]
    simp [hp1]
  · rw [if_neg hspk]
    intro hps
    have hsf : s ∈ l.filter p := List.mem_filter.mpr ⟨hs, hps⟩
    rw [hfil] at hsf
    exact hspk (by rw [List.mem_singleton.mp hsf])

/-- A conflict-ignoring insert adds nothing a `mk`-refuting filter keeps. -/
theorem bulkIgnore_filter_pred {ν ρ : Type} (keyMatch : ν → ρ → Bool) (mk : Nat → ν → ρ)
    (pkOf : ρ → Nat) (p : ρ → Bool) (hP : ∀ q n, p (mk q n) = false)
    (ns : List ν) (t : List ρ) :
    (bulkIgnore keyMatch mk pkOf t ns).filter p = t.filter p := by
  obtain ⟨ext, he, hr⟩ := bulkIgnore_decomp keyMatch mk pkOf ns t
  rw [he, List.filter_append]
  have hext : ext.filter p = [] := by
    rw [List.filter_eq_nil_iff]
    intro r hrr
    obtain ⟨n, -, q, rfl⟩ := hr r hrr
    simp [hP]
  rw [hext, List.append_nil]

/-- Rows without an external team id are skipped by the official team
lookup fold. -/
theorem foldl_team_skip_none (ids : List Nat) :
    ∀ (bl : List TeamRow) (acc : Dict Nat Nat), (∀ b ∈ bl, b.teamId = none) →
      bl.foldl (official_team_lookup_step ids) acc = acc := by
  intro bl
  induction bl with
  | nil => intro acc _; rfl
  | cons b rest ih =>
      intro acc h
      rw [List.foldl_cons]
      have hb : b.teamId = none := h b (List.mem_cons_self _ _)
      simp only [official_team_lookup_step, hb]
      exact ih acc (fun x hx => h x (List.mem_cons_of_mem _ hx))

/-- Re-running the event upsert against its own output changes nothing:
every insert conflicts and the re-read lookup is identical. -/
theorem process_events_idem (events : List EventRow) (ed ednu : List EventData)
    (qms : Dict String Nat) (gms : Dict (String × Option Nat) GameRow)
    (t1 : List EventRow) (d1 : Dict (Nat × Nat) Nat)
    (h : _process_events events ed ednu qms gms = .ok (t1, d1)) :
    _process_events t1 ed ednu qms gms = .ok (t1, d1) := by
  unfold _process_events at h ⊢
  obtain ⟨rows, hrows, h⟩ := except_bind_eq_ok h
  try simp only [] at h
  obtain ⟨keys, hkeys, h⟩ := except_bind_eq_ok h
  try simp only [] at h
  simp only [pure, Except.pure, Except.ok.injEq, Prod.mk.injEq] at h
  obtain ⟨h1, h2⟩ := h
  have hnoop : insert_events t1 rows = t1 := by
    apply bulkIgnore_noop
    intro n hn
    rw [← h1]
    exact bulkIgnore_present _ _ _ (by intro q n2; simp [event_key]) _ events n hn
  rw [h1] at h2
  simp only [hrows, except_ok_bind]
  unfold insert_events at hnoop ⊢
  rw [hnoop]
  simp only [hkeys, except_ok_bind, h2]
  rfl

/-- Re-running the participation pass against its own output changes
nothing: the dedup fold is identical and every insert conflicts. -/
theorem process_teps_idem (teps : List TEPRow) (tn : List TeamNameRow)
    (ed : List EventData) (events : Dict (Nat × Nat) Nat) (teams : Dict Nat Nat)
    (guests : Dict String Nat) (gms : Dict (String × Option Nat) GameRow)
    (t1 : List TEPRow)
    (h : _process_team_event_participations teps tn ed events teams guests gms = .ok t1) :
    _process_team_event_participations t1 tn ed events teams guests gms = .ok t1 := by
  unfold _process_team_event_participations at h ⊢
  try simp only [] at h
  obtain ⟨uniq, huniq, h⟩ := except_bind_eq_ok h
  simp only [pure, Except.pure, Except.ok.injEq] at h
  have hnoop : insert_teps t1 (uniq.map (·.2)) = t1 := by
    apply bulkIgnore_noop
    intro n hn
    rw [← h]
    exact bulkIgnore_present _ _ _ (by intro q n2; simp [tep_key]) _ teps n hn
  simp only [huniq, except_ok_bind]
  unfold insert_teps at hnoop ⊢
  rw [hnoop]
  rfl

/-- Re-running the official-team pass against its own output — even
after the guest pass appended blank teams and guest names — changes
nothing: every insert conflicts, the blank rows are skipped by the
lookup fold, and the re-read lookup is identical. -/
theorem process_official_teams_idem_ext (t0 : List TeamRow) (tn0 : List TeamNameRow)
    (ed : List EventData) (t1 : List TeamRow) (tn1 : List TeamNameRow) (lk : Dict Nat Nat)
    (h : _process_official_teams t0 tn0 ed = .ok (t1, tn1, lk))
    (bl : List TeamRow) (hbl : ∀ b ∈ bl, b.teamId = none) (gtn : List TeamNameRow) :
    _process_official_teams (t1 ++ bl) (tn1 ++ gtn) ed = .ok (t1 ++ bl, tn1 ++ gtn, lk) := by
  unfold _process_official_teams at h ⊢
  try simp only [] at h
  try simp only []
  obtain ⟨tn_rows, htnr, h⟩ := except_bind_eq_ok h
  simp only [pure, Except.pure, Except.ok.injEq, Prod.mk.injEq] at h
  obtain ⟨h1, h2, h3⟩ := h
  rw [h1] at h3
  rw [h1] at htnr
  have hnoop : insert_teams (t1 ++ bl) (dedupList ((ed.flatMap (·.teams)).filterMap (·.team_id)))
      = t1 ++ bl := by
    apply bulkIgnore_noop
    intro n hn
    apply any_append_left
    rw [← h1]
    exact bulkIgnore_present _ _ _ (by intro q n2; simp [team_key]) _ t0 n hn
  have hlk2 : (t1 ++ bl).foldl
      (official_team_lookup_step (dedupList ((ed.flatMap (·.teams)).filterMap (·.team_id))))
      [] = lk := by
    rw [List.foldl_append]
    rw [foldl_team_skip_none _ bl _ hbl]
    exact h3
  unfold insert_teams at hnoop ⊢
  rw [hnoop, hlk2]
  rw [h3] at htnr
  simp only [htnr, except_ok_bind]
  have hnoop2 : insert_team_names (tn1 ++ gtn) tn_rows = tn1 ++ gtn := by
    apply bulkIgnore_noop
    intro n hn
    apply any_append_left
    rw [← h2]
    exact bulkIgnore_present _ _ _ (by intro q n2; simp [team_name_key]) _ tn0 n hn
  rw [hnoop2]
  rfl

/-- Folding guest rows with fresh, pairwise distinct names into the
existing-guest lookup appends their (name, team) bindings in order. -/
theorem guest_fold_ext (names : List String) :
    ∀ (ext : List TeamNameRow) (acc : Dict String Nat),
      (∀ r ∈ ext, r.guest = true ∧ r.name ∈ names) →
      (∀ r ∈ ext, dget acc r.name = none) →
      (ext.map (fun r => r.name)).Nodup →
      ext.foldl (fun d tn =>
        if tn.guest ∧ tn.name ∈ names then dinsert d tn.name tn.teamId else d) acc
        = acc ++ ext.map (fun tn => (tn.name, tn.teamId)) := by
  intro ext
  induction ext with
  | nil => intro acc _ _ _; simp
  | cons r rest ih =>
      intro acc hp hf hnd
      simp only [List.map_cons, List.nodup_cons] at hnd
      have hcond := hp r (List.mem_cons_self _ _)
      rw [List.foldl_cons, if_pos (⟨hcond.1, hcond.2⟩ : r.guest = true ∧ r.name ∈ names)]
      rw [dinsert_fresh acc r.name r.teamId (hf r (List.mem_cons_self _ _))]
      rw [ih (acc ++ [(r.name, r.teamId)]) ?_ ?_ hnd.2]
      · simp
      · intro x hx
        exact hp x (List.mem_cons_of_mem _ hx)
      · intro x hx
        rw [dget_append, hf x (List.mem_cons_of_mem _ hx)]
        have hne : ¬ (r.name = x.name) :=
          fun hcon => hnd.1 (List.mem_map.mpr ⟨x, hx, hcon.symm⟩)
        simp [dget, hne]

/-- The paired elementwise facts carried by the guest bulk-create. -/
theorem guest_ext_props :
    ∀ (ext : List TeamNameRow) (news : List TeamNameNew),
      List.Forall₂ (fun (r : TeamNameRow) (n : TeamNameNew) =>
        r.name = n.name ∧ r.teamId = n.team_id ∧ r.guest = n.guest) ext news →
      ext.map (fun r => (r.name, r.teamId)) = news.map (fun n => (n.name, n.team_id)) ∧
      ext.map (fun r => r.name) = news.map (fun n => n.name) ∧
      ∀ r ∈ ext, ∃ n ∈ news, r.guest = n.guest := by
  intro ext news h
  induction h with
  | nil => exact ⟨rfl, rfl, by simp⟩
  | cons hrn htail ih =>
      obtain ⟨e1, e2, e3⟩ := hrn
      refine ⟨?_, ?_, ?_⟩
      · simp only [List.map_cons, ih.1, e1, e2]
      · simp only [List.map_cons, ih.2.1, e1]
      · intro r hr
        rcases List.mem_cons.mp hr with rfl | hr2
        · exact ⟨_, List.mem_cons_self _ _, e3⟩
        · obtain ⟨n, hn, hg⟩ := ih.2.2 r hr2
          exact ⟨n, List.mem_cons_of_mem _ hn, hg⟩

/-- Folding fresh, pairwise distinct (name, blank team) pairs into the
new-guest lookup appends their (name, pk) bindings in order. -/
theorem foldl_dinsert_pk_fresh :
    ∀ (ps : List (String × TeamRow)) (acc : Dict String Nat),
      (∀ p ∈ ps, dget acc p.1 = none) → (ps.map (fun p => p.1)).Nodup →
      ps.foldl (fun d p => dinsert d p.1 p.2.pk) acc
        = acc ++ ps.map (fun p => (p.1, p.2.pk)) := by
  intro ps
  induction ps with
  | nil => intro acc _ _; simp
  | cons p rest ih =>
      intro acc hf hnd
      simp only [List.map_cons, List.nodup_cons] at hnd
      rw [List.foldl_cons]
      rw [dinsert_fresh acc p.1 p.2.pk (hf p (List.mem_cons_self _ _))]
      rw [ih (acc ++ [(p.1, p.2.pk)]) ?_ hnd.2]
      · simp
      · intro x hx
        rw [dget_append, hf x (List.mem_cons_of_mem _ hx)]
        have hne : ¬ (p.1 = x.1) :=
          fun hcon => hnd.1 (List.mem_map.mpr ⟨x, hx, hcon.symm⟩)
        simp [dget, hne]

/-- Re-running the guest-team pass against its own output changes
nothing: every scraped guest name now carries a guest team-name row, so
no blank teams or guest names are created and the returned lookup is
the same dictionary. -/
theorem process_guest_teams_idem (t0 : List TeamRow) (tn0 : List TeamNameRow)
    (ed : List EventData) (t1 : List TeamRow) (tn1 : List TeamNameRow) (gd : Dict String Nat)
    (h : _process_guest_teams t0 tn0 ed = .ok (t1, tn1, gd)) :
    _process_guest_teams t1 tn1 ed = .ok (t1, tn1, gd) := by
  unfold _process_guest_teams at h ⊢
  try simp only [] at h
  try simp only []
  obtain ⟨tng, htng, h⟩ := except_bind_eq_ok h
  simp only [pure, Except.pure, Except.ok.injEq, Prod.mk.injEq] at h
  obtain ⟨h1, h2, h3⟩ := h
  subst h2
  obtain ⟨ext, hext, hf⟩ := bulk_create_guest_char _ _ _ htng
  obtain ⟨hmap_pairs, hmap_names, hmap_guest⟩ := guest_ext_props _ _ hf
  subst hext
  have hnd_names : (dedupList ((ed.flatMap (·.teams)).filterMap (fun td => if td.team_id = none then some td.name else none))).Nodup := dedupList_nodup _
  have hnd_new : (List.filter (fun n => decide (n ∉ List.map (·.1) (List.foldl (fun d tn => if tn.guest ∧ tn.name ∈ dedupList ((ed.flatMap (·.teams)).filterMap (fun td => if td.team_id = none then some td.name else none)) then dinsert d tn.name tn.teamId else d) ([] : Dict String Nat) tn0))) (dedupList ((ed.flatMap (·.teams)).filterMap (fun td => if td.team_id = none then some td.name else none)))).Nodup := List.Nodup.filter _ hnd_names
  have hnd_sorted : (sorted_strs (List.filter (fun n => decide (n ∉ List.map (·.1) (List.foldl (fun d tn => if tn.guest ∧ tn.name ∈ dedupList ((ed.flatMap (·.teams)).filterMap (fun td => if td.team_id = none then some td.name else none)) then dinsert d tn.name tn.teamId else d) ([] : Dict String Nat) tn0))) (dedupList ((ed.flatMap (·.teams)).filterMap (fun td => if td.team_id = none then some td.name else none))))).Nodup := sorted_strs_nodup _ hnd_new
  have hlen2 : (sorted_strs (List.filter (fun n => decide (n ∉ List.map (·.1) (List.foldl (fun d tn => if tn.guest ∧ tn.name ∈ dedupList ((ed.flatMap (·.teams)).filterMap (fun td => if td.team_id = none then some td.name else none)) then dinsert d tn.name tn.teamId else d) ([] : Dict String Nat) tn0))) (dedupList ((ed.flatMap (·.teams)).filterMap (fun td => if td.team_id = none then some td.name else none))))).length ≤ ((create_blank_teams t0 (List.length (List.filter (fun n => decide (n ∉ List.map (·.1) (List.foldl (fun d tn => if tn.guest ∧ tn.name ∈ dedupList ((ed.flatMap (·.teams)).filterMap (fun td => if td.team_id = none then some td.name else none)) then dinsert d tn.name tn.teamId else d) ([] : Dict String Nat) tn0))) (dedupList ((ed.flatMap (·.teams)).filterMap (fun td => if td.team_id = none then some td.name else none)))))).2).length := by
    rw [sorted_strs_length, (create_blank_teams_spec _ t0).2.2]
  have hfst : List.map (fun p => p.1) (List.zip (sorted_strs (List.filter (fun n => decide (n ∉ List.map (·.1) (List.foldl (fun d tn => if tn.guest ∧ tn.name ∈ dedupList ((ed.flatMap (·.teams)).filterMap (fun td => if td.team_id = none then some td.name else none)) then dinsert d tn.name tn.teamId else d) ([] : Dict String Nat) tn0))) (dedupList ((ed.flatMap (·.teams)).filterMap (fun td => if td.team_id = none then some td.name else none))))) (create_blank_teams t0 (List.length (List.filter (fun n => decide (n ∉ List.map (·.1) (List.foldl (fun d tn => if tn.guest ∧ tn.name ∈ dedupList ((ed.flatMap (·.teams)).filterMap (fun td => if td.team_id = none then some td.name else none)) then dinsert d tn.name tn.teamId else d) ([] : Dict String Nat) tn0))) (dedupList ((ed.flatMap (·.teams)).filterMap (fun td => if td.team_id = none then some td.name else none)))))).2) = sorted_strs (List.filter (fun n => decide (n ∉ List.map (·.1) (List.foldl (fun d tn => if tn.guest ∧ tn.name ∈ dedupList ((ed.flatMap (·.teams)).filterMap (fun td => if td.team_id = none then some td.name else none)) then dinsert d tn.name tn.teamId else d) ([] : Dict String Nat) tn0))) (dedupList ((ed.flatMap (·.teams)).filterMap (fun td => if td.team_id = none then some td.name else none)))) :=
    List.map_fst_zip _ _ hlen2
  have hps_fst : List.map (fun q => q.1) (List.map (fun p => (p.1, p.2.pk)) (List.zip (sorted_strs (List.filter (fun n => decide (n ∉ List.map (·.1) (List.foldl (fun d tn => if tn.guest ∧ tn.name ∈ dedupList ((ed.flatMap (·.teams)).filterMap (fun td => if td.team_id = none then some td.name else none)) then dinsert d tn.name tn.teamId else d) ([] : Dict String Nat) tn0))) (dedupList ((ed.flatMap (·.teams)).filterMap (fun td => if td.team_id = none then some td.name else none))))) (create_blank_teams t0 (List.length (List.filter (fun n => decide (n ∉ List.map (·.1) (List.foldl (fun d tn => if tn.guest ∧ tn.name ∈ dedupList ((ed.flatMap (·.teams)).filterMap (fun td => if td.team_id = none then some td.name else none)) then dinsert d tn.name tn.teamId else d) ([] : Dict String Nat) tn0))) (dedupList ((ed.flatMap (·.teams)).filterMap (fun td => if td.team_id = none then some td.name else none)))))).2)) = sorted_strs (List.filter (fun n => decide (n ∉ List.map (·.1) (List.foldl (fun d tn => if tn.guest ∧ tn.name ∈ dedupList ((ed.flatMap (·.teams)).filterMap (fun td => if td.team_id = none then some td.name else none)) then dinsert d tn.name tn.teamId else d) ([] : Dict String Nat) tn0))) (dedupList ((ed.flatMap (·.teams)).filterMap (fun td => if td.team_id = none then some td.name else none)))) := by
    rw [List.map_map]
    exact hfst
  have hnewsub : ∀ x, x ∈ (List.filter (fun n => decide (n ∉ List.map (·.1) (List.foldl (fun d tn => if tn.guest ∧ tn.name ∈ dedupList ((ed.flatMap (·.teams)).filterMap (fun td => if td.team_id = none then some td.name else none)) then dinsert d tn.name tn.teamId else d) ([] : Dict String Nat) tn0))) (dedupList ((ed.flatMap (·.teams)).filterMap (fun td => if td.team_id = none then some td.name else none)))) → x ∈ (dedupList ((ed.flatMap (·.teams)).filterMap (fun td => if td.team_id = none then some td.name else none))) ∧ x ∉ List.map (·.1) (List.foldl (fun d tn => if tn.guest ∧ tn.name ∈ dedupList ((ed.flatMap (·.teams)).filterMap (fun td => if td.team_id = none then some td.name else none)) then dinsert d tn.name tn.teamId else d) ([] : Dict String Nat) tn0) := by
    intro x hx
    have hx2 := List.mem_filter.mp hx
    exact ⟨hx2.1, by simpa using hx2.2⟩
  have hfreshE : ∀ q ∈ (List.map (fun p => (p.1, p.2.pk)) (List.zip (sorted_strs (List.filter (fun n => decide (n ∉ List.map (·.1) (List.foldl (fun d tn => if tn.guest ∧ tn.name ∈ dedupList ((ed.flatMap (·.teams)).filterMap (fun td => if td.team_id = none then some td.name else none)) then dinsert d tn.name tn.teamId else d) ([] : Dict String Nat) tn0))) (dedupList ((ed.flatMap (·.teams)).filterMap (fun td => if td.team_id = none then some td.name else none))))) (create_blank_teams t0 (List.length (List.filter (fun n => decide (n ∉ List.map (·.1) (List.foldl (fun d tn => if tn.guest ∧ tn.name ∈ dedupList ((ed.flatMap (·.teams)).filterMap (fun td => if td.team_id = none then some td.name else none)) then dinsert d tn.name tn.teamId else d) ([] : Dict String Nat) tn0))) (dedupList ((ed.flatMap (·.teams)).filterMap (fun td => if td.team_id = none then some td.name else none)))))).2)), dget (List.foldl (fun d tn => if tn.guest ∧ tn.name ∈ dedupList ((ed.flatMap (·.teams)).filterMap (fun td => if td.team_id = none then some td.name else none)) then dinsert d tn.name tn.teamId else d) ([] : Dict String Nat) tn0) q.1 = none := by
    intro q hq
    rcases List.mem_map.mp hq with ⟨p, hp, rfl⟩
    have hmem : p.1 ∈ (sorted_strs (List.filter (fun n => decide (n ∉ List.map (·.1) (List.foldl (fun d tn => if tn.guest ∧ tn.name ∈ dedupList ((ed.flatMap (·.teams)).filterMap (fun td => if td.team_id = none then some td.name else none)) then dinsert d tn.name tn.teamId else d) ([] : Dict String Nat) tn0))) (dedupList ((ed.flatMap (·.teams)).filterMap (fun td => if td.team_id = none then some td.name else none))))) := by
      rw [← hfst]
      exact List.mem_map.mpr ⟨p, hp, rfl⟩
    exact (dget_none_iff _ _).mpr (hnewsub p.1 ((sorted_strs_mem _ _).mp hmem)).2
  have hguest_all : ∀ r ∈ ext, r.guest = true := by
    intro r hr
    obtain ⟨n, hn, hg⟩ := hmap_guest r hr
    rcases List.mem_map.mp hn with ⟨p, hp, rfl⟩
    exact hg
  have hname_ext : List.map (fun r => r.name) ext = sorted_strs (List.filter (fun n => decide (n ∉ List.map (·.1) (List.foldl (fun d tn => if tn.guest ∧ tn.name ∈ dedupList ((ed.flatMap (·.teams)).filterMap (fun td => if td.team_id = none then some td.name else none)) then dinsert d tn.name tn.teamId else d) ([] : Dict String Nat) tn0))) (dedupList ((ed.flatMap (·.teams)).filterMap (fun td => if td.team_id = none then some td.name else none)))) := by
    rw [hmap_names, List.map_map]
    exact hfst
  have hname_mem_sorted : ∀ r ∈ ext, r.name ∈ (sorted_strs (List.filter (fun n => decide (n ∉ List.map (·.1) (List.foldl (fun d tn => if tn.guest ∧ tn.name ∈ dedupList ((ed.flatMap (·.teams)).filterMap (fun td => if td.team_id = none then some td.name else none)) then dinsert d tn.name tn.teamId else d) ([] : Dict String Nat) tn0))) (dedupList ((ed.flatMap (·.teams)).filterMap (fun td => if td.team_id = none then some td.name else none))))) := by
    intro r hr
    rw [← hname_ext]
    exact List.mem_map.mpr ⟨r, hr, rfl⟩
  have hname_mem : ∀ r ∈ ext, r.name ∈ (dedupList ((ed.flatMap (·.teams)).filterMap (fun td => if td.team_id = none then some td.name else none))) := by
    intro r hr
    exact (hnewsub _ ((sorted_strs_mem _ _).mp (hname_mem_sorted r hr))).1
  have hfresh_ext : ∀ r ∈ ext, dget (List.foldl (fun d tn => if tn.guest ∧ tn.name ∈ dedupList ((ed.flatMap (·.teams)).filterMap (fun td => if td.team_id = none then some td.name else none)) then dinsert d tn.name tn.teamId else d) ([] : Dict String Nat) tn0) r.name = none := by
    intro r hr
    exact (dget_none_iff _ _).mpr
      (hnewsub _ ((sorted_strs_mem _ _).mp (hname_mem_sorted r hr))).2
  have hnd_ext : (List.map (fun r => r.name) ext).Nodup := by
    rw [hname_ext]
    exact hnd_sorted
  have hpair_ps : List.map (fun tn => (tn.name, tn.teamId)) ext = List.map (fun p => (p.1, p.2.pk)) (List.zip (sorted_strs (List.filter (fun n => decide (n ∉ List.map (·.1) (List.foldl (fun d tn => if tn.guest ∧ tn.name ∈ dedupList ((ed.flatMap (·.teams)).filterMap (fun td => if td.team_id = none then some td.name else none)) then dinsert d tn.name tn.teamId else d) ([] : Dict String Nat) tn0))) (dedupList ((ed.flatMap (·.teams)).filterMap (fun td => if td.team_id = none then some td.name else none))))) (create_blank_teams t0 (List.length (List.filter (fun n => decide (n ∉ List.map (·.1) (List.foldl (fun d tn => if tn.guest ∧ tn.name ∈ dedupList ((ed.flatMap (·.teams)).filterMap (fun td => if td.team_id = none then some td.name else none)) then dinsert d tn.name tn.teamId else d) ([] : Dict String Nat) tn0))) (dedupList ((ed.flatMap (·.teams)).filterMap (fun td => if td.team_id = none then some td.name else none)))))).2) := by
    rw [hmap_pairs, List.map_map]
    rfl
  have hE2 : List.foldl (fun d tn => if tn.guest ∧ tn.name ∈ dedupList ((ed.flatMap (·.teams)).filterMap (fun td => if td.team_id = none then some td.name else none)) then dinsert d tn.name tn.teamId else d) ([] : Dict String Nat) (tn0 ++ ext) = (List.foldl (fun d tn => if tn.guest ∧ tn.name ∈ dedupList ((ed.flatMap (·.teams)).filterMap (fun td => if td.team_id = none then some td.name else none)) then dinsert d tn.name tn.teamId else d) ([] : Dict String Nat) tn0) ++ (List.map (fun p => (p.1, p.2.pk)) (List.zip (sorted_strs (List.filter (fun n => decide (n ∉ List.map (·.1) (List.foldl (fun d tn => if tn.guest ∧ tn.name ∈ dedupList ((ed.flatMap (·.teams)).filterMap (fun td => if td.team_id = none then some td.name else none)) then dinsert d tn.name tn.teamId else d) ([] : Dict String Nat) tn0))) (dedupList ((ed.flatMap (·.teams)).filterMap (fun td => if td.team_id = none then some td.name else none))))) (create_blank_teams t0 (List.length (List.filter (fun n => decide (n ∉ List.map (·.1) (List.foldl (fun d tn => if tn.guest ∧ tn.name ∈ dedupList ((ed.flatMap (·.teams)).filterMap (fun td => if td.team_id = none then some td.name else none)) then dinsert d tn.name tn.teamId else d) ([] : Dict String Nat) tn0))) (dedupList ((ed.flatMap (·.teams)).filterMap (fun td => if td.team_id = none then some td.name else none)))))).2)) := by
    rw [List.foldl_append]
    rw [guest_fold_ext _ ext _ (fun r hr => ⟨hguest_all r hr, hname_mem r hr⟩)
      hfresh_ext hnd_ext]
    rw [hpair_ps]
  have hNG : List.foldl (fun d p => dinsert d p.1 p.2.pk) [] (List.zip (sorted_strs (List.filter (fun n => decide (n ∉ List.map (·.1) (List.foldl (fun d tn => if tn.guest ∧ tn.name ∈ dedupList ((ed.flatMap (·.teams)).filterMap (fun td => if td.team_id = none then some td.name else none)) then dinsert d tn.name tn.teamId else d) ([] : Dict String Nat) tn0))) (dedupList ((ed.flatMap (·.teams)).filterMap (fun td => if td.team_id = none then some td.name else none))))) (create_blank_teams t0 (List.length (List.filter (fun n => decide (n ∉ List.map (·.1) (List.foldl (fun d tn => if tn.guest ∧ tn.name ∈ dedupList ((ed.flatMap (·.teams)).filterMap (fun td => if td.team_id = none then some td.name else none)) then dinsert d tn.name tn.teamId else d) ([] : Dict String Nat) tn0))) (dedupList ((ed.flatMap (·.teams)).filterMap (fun td => if td.team_id = none then some td.name else none)))))).2) = List.map (fun p => (p.1, p.2.pk)) (List.zip (sorted_strs (List.filter (fun n => decide (n ∉ List.map (·.1) (List.foldl (fun d tn => if tn.guest ∧ tn.name ∈ dedupList ((ed.flatMap (·.teams)).filterMap (fun td => if td.team_id = none then some td.name else none)) then dinsert d tn.name tn.teamId else d) ([] : Dict String Nat) tn0))) (dedupList ((ed.flatMap (·.teams)).filterMap (fun td => if td.team_id = none then some td.name else none))))) (create_blank_teams t0 (List.length (List.filter (fun n => decide (n ∉ List.map (·.1) (List.foldl (fun d tn => if tn.guest ∧ tn.name ∈ dedupList ((ed.flatMap (·.teams)).filterMap (fun td => if td.team_id = none then some td.name else none)) then dinsert d tn.name tn.teamId else d) ([] : Dict String Nat) tn0))) (dedupList ((ed.flatMap (·.teams)).filterMap (fun td => if td.team_id = none then some td.name else none)))))).2) := by
    rw [foldl_dinsert_pk_fresh (List.zip (sorted_strs (List.filter (fun n => decide (n ∉ List.map (·.1) (List.foldl (fun d tn => if tn.guest ∧ tn.name ∈ dedupList ((ed.flatMap (·.teams)).filterMap (fun td => if td.team_id = none then some td.name else none)) then dinsert d tn.name tn.teamId else d) ([] : Dict String Nat) tn0))) (dedupList ((ed.flatMap (·.teams)).filterMap (fun td => if td.team_id = none then some td.name else none))))) (create_blank_teams t0 (List.length (List.filter (fun n => decide (n ∉ List.map (·.1) (List.foldl (fun d tn => if tn.guest ∧ tn.name ∈ dedupList ((ed.flatMap (·.teams)).filterMap (fun td => if td.team_id = none then some td.name else none)) then dinsert d tn.name tn.teamId else d) ([] : Dict String Nat) tn0))) (dedupList ((ed.flatMap (·.teams)).filterMap (fun td => if td.team_id = none then some td.name else none)))))).2) [] (fun p hp => rfl) (by rw [hfst]; exact hnd_sorted)]
    simp
  have hgd : (List.foldl (fun d tn => if tn.guest ∧ tn.name ∈ dedupList ((ed.flatMap (·.teams)).filterMap (fun td => if td.team_id = none then some td.name else none)) then dinsert d tn.name tn.teamId else d) ([] : Dict String Nat) tn0) ++ (List.map (fun p => (p.1, p.2.pk)) (List.zip (sorted_strs (List.filter (fun n => decide (n ∉ List.map (·.1) (List.foldl (fun d tn => if tn.guest ∧ tn.name ∈ dedupList ((ed.flatMap (·.teams)).filterMap (fun td => if td.team_id = none then some td.name else none)) then dinsert d tn.name tn.teamId else d) ([] : Dict String Nat) tn0))) (dedupList ((ed.flatMap (·.teams)).filterMap (fun td => if td.team_id = none then some td.name else none))))) (create_blank_teams t0 (List.length (List.filter (fun n => decide (n ∉ List.map (·.1) (List.foldl (fun d tn => if tn.guest ∧ tn.name ∈ dedupList ((ed.flatMap (·.teams)).filterMap (fun td => if td.team_id = none then some td.name else none)) then dinsert d tn.name tn.teamId else d) ([] : Dict String Nat) tn0))) (dedupList ((ed.flatMap (·.teams)).filterMap (fun td => if td.team_id = none then some td.name else none)))))).2)) = gd := by
    rw [← h3]
    unfold dunion
    rw [hNG]
    exact (foldl_dinsert_fresh _ _ hfreshE (by rw [hps_fst]; exact hnd_sorted)).symm
  have hfilter2 : List.filter (fun n => decide (n ∉ List.map (·.1) ((List.foldl (fun d tn => if tn.guest ∧ tn.name ∈ dedupList ((ed.flatMap (·.teams)).filterMap (fun td => if td.team_id = none then some td.name else none)) then dinsert d tn.name tn.teamId else d) ([] : Dict String Nat) tn0) ++ (List.map (fun p => (p.1, p.2.pk)) (List.zip (sorted_strs (List.filter (fun n => decide (n ∉ List.map (·.1) (List.foldl (fun d tn => if tn.guest ∧ tn.name ∈ dedupList ((ed.flatMap (·.teams)).filterMap (fun td => if td.team_id = none then some td.name else none)) then dinsert d tn.name tn.teamId else d) ([] : Dict String Nat) tn0))) (dedupList ((ed.flatMap (·.teams)).filterMap (fun td => if td.team_id = none then some td.name else none))))) (create_blank_teams t0 (List.length (List.filter (fun n => decide (n ∉ List.map (·.1) (List.foldl (fun d tn => if tn.guest ∧ tn.name ∈ dedupList ((ed.flatMap (·.teams)).filterMap (fun td => if td.team_id = none then some td.name else none)) then dinsert d tn.name tn.teamId else d) ([] : Dict String Nat) tn0))) (dedupList ((ed.flatMap (·.teams)).filterMap (fun td => if td.team_id = none then some td.name else none)))))).2))))) (dedupList ((ed.flatMap (·.teams)).filterMap (fun td => if td.team_id = none then some td.name else none)))
      = [] := by
    rw [List.filter_eq_nil_iff]
    intro n hn
    simp only [decide_eq_true_eq, not_not]
    rw [List.map_append]
    by_cases hcase : n ∈ List.map (·.1) (List.foldl (fun d tn => if tn.guest ∧ tn.name ∈ dedupList ((ed.flatMap (·.teams)).filterMap (fun td => if td.team_id = none then some td.name else none)) then dinsert d tn.name tn.teamId else d) ([] : Dict String Nat) tn0)
    · exact List.mem_append_left _ hcase
    · refine List.mem_append_right _ ?_
      rw [hps_fst, sorted_strs_mem]
      exact List.mem_filter.mpr ⟨hn, by simpa using hcase⟩
  rw [hE2, hfilter2]
  simp only [List.length_nil, create_blank_teams_zero, sorted_strs_nil, List.map_nil,
    List.foldl_nil, dunion_nil, List.zip_nil_right,
    bulk_create_guest_nil, except_ok_bind]
  rw [hgd]
  rfl

/-- A failing game match inside the autoscrape filter fails the step. -/
theorem autoscrape_filter_err (ev : List EventRow) (ed : List EventData) (gid : Option Nat)
    (qms : Dict String Nat) (gms : Dict (String × Option Nat) GameRow) (today now : Nat)
    (e : String)
    (hm : filterME (fun p => do
        let g ← _match_game_to_event gms p.2.game_type (weekday p.2.date)
        pure (decide (gid = some g.pk)))
      ed.enum = .error e) :
    _process_autoscrape_event ev ed gid qms gms false today now = .error e := by
  unfold _process_autoscrape_event
  simp only [Bool.false_eq_true, if_false]
  rw [hm]
  rfl

/-- More than one scraped event matching the autoscrape target fails the
step. -/
theorem autoscrape_multi_err (ev : List EventRow) (ed : List EventData) (gid : Option Nat)
    (qms : Dict String Nat) (gms : Dict (String × Option Nat) GameRow) (today now : Nat)
    (x y : Nat × EventData) (rest : List (Nat × EventData))
    (hm : filterME (fun p => do
        let g ← _match_game_to_event gms p.2.game_type (weekday p.2.date)
        pure (decide (gid = some g.pk)))
      ed.enum = .ok (x :: y :: rest)) :
    _process_autoscrape_event ev ed gid qms gms false today now
      = .error "ValueError: Found multiple events in page data that match autoscraping game." := by
  unfold _process_autoscrape_event
  simp only [Bool.false_eq_true, if_false]
  rw [hm, except_ok_bind]

/-- The guest pass only appends: blank teams (no external id) to the
team table and new rows to the team-name table. -/
theorem process_guest_teams_shape (t0 : List TeamRow) (tn0 : List TeamNameRow)
    (ed : List EventData) (t1 : List TeamRow) (tn1 : List TeamNameRow) (gd : Dict String Nat)
    (h : _process_guest_teams t0 tn0 ed = .ok (t1, tn1, gd)) :
    ∃ bl gtn, t1 = t0 ++ bl ∧ (∀ b ∈ bl, b.teamId = none) ∧ tn1 = tn0 ++ gtn := by
  unfold _process_guest_teams at h
  try simp only [] at h
  obtain ⟨tng, htng, h⟩ := except_bind_eq_ok h
  simp only [pure, Except.pure, Except.ok.injEq, Prod.mk.injEq] at h
  obtain ⟨h1, h2, h3⟩ := h
  obtain ⟨ext, hext, -⟩ := bulk_create_guest_char _ _ _ htng
  refine ⟨(create_blank_teams t0 (List.length (List.filter (fun n => decide (n ∉ List.map (·.1) (List.foldl (fun d tn => if tn.guest ∧ tn.name ∈ dedupList ((ed.flatMap (·.teams)).filterMap (fun td => if td.team_id = none then some td.name else none)) then dinsert d tn.name tn.teamId else d) ([] : Dict String Nat) tn0))) (dedupList ((ed.flatMap (·.teams)).filterMap (fun td => if td.team_id = none then some td.name else none)))))).2, ext, ?_, ?_, ?_⟩
  · rw [← h1, (create_blank_teams_spec _ t0).1]
  · intro b hb
    exact (create_blank_teams_spec _ t0).2.1 b hb
  · rw [← h2, hext]

/-- C1: for every valid page input, running the reconciliation engine a
second time with the same input, venue URL and clock over the store a
first successful call produced leaves the persisted store unchanged —
the second call inserts zero new Venue, GameType, Game, Quizmaster,
Event, Team, TeamName or TeamEventParticipation rows (each table keeps
exactly its primary keys, whether the second call commits or rolls
back). -/
theorem push_to_db_idempotent (st0 : DBState) (url : String) (m : Bool) (data : PageData)
    (gid : Option Nat) (today now : Nat) (st1 : DBState) (r : Bool) (u : Option Nat)
    (dd : Option EventData)
    (h : push_to_db st0 url m data gid today now = .ok (st1, r, u, dd)) :
    table_pks (run_push st1 url m data gid today now) = table_pks st1 := by
  unfold run_push
  cases h2 : push_to_db st1 url m data gid today now with
  | error e => rfl
  | ok res =>
      obtain ⟨res1, resr, resu, resd⟩ := res
      show table_pks res1 = table_pks st1
      unfold push_to_db at h h2
      by_cases hguard : data.event_data = [] ∧ m = false
      · rw [if_pos hguard] at h2
        simp only [Except.ok.injEq, Prod.mk.injEq] at h2
        rw [← h2.1]
      · rw [if_neg hguard] at h h2
        simp only [] at h h2
        obtain ⟨gr, hgr, h⟩ := except_bind_eq_ok h
        obtain ⟨gr1, gr2⟩ := gr
        obtain ⟨tasks1, htasks1, h⟩ := except_bind_eq_ok h
        obtain ⟨au, hau, h⟩ := except_bind_eq_ok h
        obtain ⟨au1, au2, au3, au4⟩ := au
        obtain ⟨ev, hev, h⟩ := except_bind_eq_ok h
        obtain ⟨evT, evD⟩ := ev
        obtain ⟨ot, hot, h⟩ := except_bind_eq_ok h
        obtain ⟨ot1, ot2, ot3⟩ := ot
        obtain ⟨gu, hgu, h⟩ := except_bind_eq_ok h
        obtain ⟨gu1, gu2, gu3⟩ := gu
        obtain ⟨teps1v, hteps1, h⟩ := except_bind_eq_ok h
        obtain ⟨teps2v, hteps2, h⟩ := except_bind_eq_ok h
        simp only [pure, Except.pure, Except.ok.injEq, Prod.mk.injEq] at h
        obtain ⟨hst1, hr2, hu2, hd2⟩ := h
        obtain ⟨grB, hgrB, h2⟩ := except_bind_eq_ok h2
        obtain ⟨grB1, grB2⟩ := grB
        obtain ⟨tasksB, htasksB, h2⟩ := except_bind_eq_ok h2
        obtain ⟨auB, hauB, h2⟩ := except_bind_eq_ok h2
        obtain ⟨auB1, auB2, auB3, auB4⟩ := auB
        obtain ⟨evB, hevB, h2⟩ := except_bind_eq_ok h2
        obtain ⟨evB1, evB2⟩ := evB
        obtain ⟨otB, hotB, h2⟩ := except_bind_eq_ok h2
        obtain ⟨otB1, otB2, otB3⟩ := otB
        obtain ⟨guB, hguB, h2⟩ := except_bind_eq_ok h2
        obtain ⟨guB1, guB2, guB3⟩ := guB
        obtain ⟨teps1B, hteps1B, h2⟩ := except_bind_eq_ok h2
        obtain ⟨teps2B, hteps2B, h2⟩ := except_bind_eq_ok h2
        simp only [pure, Except.pure, Except.ok.injEq, Prod.mk.injEq] at h2
        obtain ⟨hres, hresr, hresu, hresd⟩ := h2
        have hVen : st1.venues = (_create_or_update_venue st0.venues url data.venue_data.name now).1 := by rw [← hst1]
        have hGT : st1.gameTypes = (_process_game_types st0.gameTypes data).1 := by rw [← hst1]
        have hGames : st1.games = gr1 := by rw [← hst1]
        have hQm : st1.quizmasters = (_process_quizmasters st0.quizmasters data.event_data).1 := by rw [← hst1]
        have hEvents : st1.events = evT := by rw [← hst1]
        have hTeams : st1.teams = gu1 := by rw [← hst1]
        have hTNames : st1.teamNames = gu2 := by rw [← hst1]
        have hTeps : st1.teps = teps2v := by rw [← hst1]
        have hfind := venue_step_find st0.venues url data.venue_data.name now (_create_or_update_venue st0.venues url data.venue_data.name now).1 (_create_or_update_venue st0.venues url data.venue_data.name now).2 rfl
        have hvenB : _create_or_update_venue st1.venues url data.venue_data.name now
            = (st1.venues.map (fun w =>
                if w.pk = (_create_or_update_venue st0.venues url data.venue_data.name now).2 then { w with lastScrapedAt := now } else w), (_create_or_update_venue st0.venues url data.venue_data.name now).2) := by
          apply venue_step_found
          rw [hVen]
          exact hfind
        rw [hvenB] at hgrB hres
        simp only [] at hgrB hres
        rw [hGT] at hgrB hres
        have hgtA : _process_game_types (_process_game_types st0.gameTypes data).1 data = ((_process_game_types st0.gameTypes data).1, (_process_game_types st0.gameTypes data).2) :=
          game_types_idem st0.gameTypes data (_process_game_types st0.gameTypes data).1 (_process_game_types st0.gameTypes data).2 rfl
        rw [hgtA] at hgrB hres
        simp only [] at hgrB hres
        rw [hGames] at hgrB
        have hgrA := games_idem st0.games (_process_game_types st0.gameTypes data).1 data (_process_game_types st0.gameTypes data).2 (_create_or_update_venue st0.venues url data.venue_data.name now).2 gr1 gr2 hgr
        rw [hgrA] at hgrB
        simp only [Except.ok.injEq, Prod.mk.injEq] at hgrB
        obtain ⟨hx1, hx2⟩ := hgrB
        subst hx1
        subst hx2
        rw [hQm] at hauB hevB hres
        have hqmA : _process_quizmasters (_process_quizmasters st0.quizmasters data.event_data).1 data.event_data = ((_process_quizmasters st0.quizmasters data.event_data).1, (_process_quizmasters st0.quizmasters data.event_data).2) :=
          quizmasters_idem st0.quizmasters data.event_data (_process_quizmasters st0.quizmasters data.event_data).1 (_process_quizmasters st0.quizmasters data.event_data).2 rfl
        rw [hqmA] at hauB hevB hres
        simp only [] at hauB hevB hres
        have hID : (au1 = st0.events ∧ au2 = data.event_data ∧ au3 = none ∧ au4 = none)
            ∧ auB1 = st1.events ∧ auB2 = data.event_data ∧ auB3 = none ∧ auB4 = none := by
          cases m with
          | true =>
              rw [autoscrape_manual_id st0.events data.event_data gid (_process_quizmasters st0.quizmasters data.event_data).2 gr2 today now] at hau
              rw [autoscrape_manual_id st1.events data.event_data gid (_process_quizmasters st0.quizmasters data.event_data).2 gr2 today now] at hauB
              simp only [Except.ok.injEq, Prod.mk.injEq] at hau hauB
              exact ⟨⟨hau.1.symm, hau.2.1.symm, hau.2.2.1.symm, hau.2.2.2.symm⟩,
                hauB.1.symm, hauB.2.1.symm, hauB.2.2.1.symm, hauB.2.2.2.symm⟩
          | false =>
              cases hM : filterME (fun p => do
                  let g ← _match_game_to_event gr2 p.2.game_type (weekday p.2.date)
                  pure (decide (gid = some g.pk))) data.event_data.enum with
              | error e2 =>
                  rw [autoscrape_filter_err st0.events data.event_data gid (_process_quizmasters st0.quizmasters data.event_data).2 gr2
                    today now e2 hM] at hau
                  simp at hau
              | ok M =>
                  cases M with
                  | nil =>
                      rw [autoscrape_nil_id st0.events data.event_data gid (_process_quizmasters st0.quizmasters data.event_data).2 gr2
                        today now hM] at hau
                      rw [autoscrape_nil_id st1.events data.event_data gid (_process_quizmasters st0.quizmasters data.event_data).2 gr2
                        today now hM] at hauB
                      simp only [Except.ok.injEq, Prod.mk.injEq] at hau hauB
                      exact ⟨⟨hau.1.symm, hau.2.1.symm, hau.2.2.1.symm, hau.2.2.2.symm⟩,
                        hauB.1.symm, hauB.2.1.symm, hauB.2.2.1.symm, hauB.2.2.2.symm⟩
                  | cons x tl =>
                      cases tl with
                      | nil =>
                          obtain ⟨i, me⟩ := x
                          obtain ⟨ev0, qpk, hhits, -, hmapau⟩ :=
                            autoscrape_single_resolved st0.events data.event_data gid (_process_quizmasters st0.quizmasters data.event_data).2 gr2
                              today now i me au1 au2 au3 au4 hM hau
                          unfold _process_events at hev
                          obtain ⟨rows, hrows, hev⟩ := except_bind_eq_ok hev
                          try simp only [] at hev
                          obtain ⟨keys, hkeys, hev⟩ := except_bind_eq_ok hev
                          simp only [pure, Except.pure, Except.ok.injEq, Prod.mk.injEq] at hev
                          obtain ⟨hevT, -⟩ := hev
                          have hnil1 : au1.filter (fun x2 => decide (some x2.gameId = gid ∧
                              x2.date = today ∧ x2.quizmasterId = none)) = [] := by
                            rw [hmapau]
                            exact filter_map_update_to_nil _ _ (by simp) st0.events ev0 hhits
                          have hnilT : st1.events.filter (fun x2 => decide (some x2.gameId = gid ∧
                              x2.date = today ∧ x2.quizmasterId = none)) = [] := by
                            rw [hEvents, ← hevT]
                            rw [show (insert_events au1 rows).filter (fun x2 =>
                                decide (some x2.gameId = gid ∧ x2.date = today ∧
                                  x2.quizmasterId = none))
                                = au1.filter (fun x2 => decide (some x2.gameId = gid ∧
                                  x2.date = today ∧ x2.quizmasterId = none))
                              from bulkIgnore_filter_pred _ _ _ _ (by intro q n; simp) rows au1]
                            exact hnil1
                          rw [autoscrape_single_nohits st1.events data.event_data gid (_process_quizmasters st0.quizmasters data.event_data).2 gr2
                            today now i me hM hnilT] at hauB
                          simp at hauB
                      | cons y rest =>
                          rw [autoscrape_multi_err st0.events data.event_data gid (_process_quizmasters st0.quizmasters data.event_data).2 gr2
                            today now x y rest hM] at hau
                          simp at hau
        obtain ⟨⟨ha1, ha2, ha3, ha4⟩, hb1, hb2, hb3, hb4⟩ := hID
        subst ha1
        subst ha2
        subst ha3
        subst ha4
        subst hb1
        subst hb2
        subst hb3
        subst hb4
        have hevA := process_events_idem st0.events data.event_data data.event_data
          (_process_quizmasters st0.quizmasters data.event_data).2 gr2 evT evD hev
        rw [hEvents] at hevB
        rw [hevA] at hevB
        simp only [Except.ok.injEq, Prod.mk.injEq] at hevB
        obtain ⟨he1, he2⟩ := hevB
        subst he1
        subst he2
        rw [autoscrape_teps_none st0.teps gu1 gu2 m none] at hteps1
        simp only [Except.ok.injEq] at hteps1
        subst hteps1
        rw [autoscrape_teps_none st1.teps guB1 guB2 m none] at hteps1B
        simp only [Except.ok.injEq] at hteps1B
        subst hteps1B
        obtain ⟨bl, gtn, hbl1, hblnone, hgtn1⟩ :=
          process_guest_teams_shape ot1 ot2 data.event_data gu1 gu2 gu3 hgu
        have hotA := process_official_teams_idem_ext st0.teams st0.teamNames data.event_data
          ot1 ot2 ot3 hot bl hblnone gtn
        rw [hTeams, hTNames, hbl1, hgtn1] at hotB
        rw [hotA] at hotB
        simp only [Except.ok.injEq, Prod.mk.injEq] at hotB
        obtain ⟨ho1, ho2, ho3⟩ := hotB
        rw [← hbl1] at ho1
        rw [← hgtn1] at ho2
        subst ho1
        subst ho2
        subst ho3
        have hguA := process_guest_teams_idem ot1 ot2 data.event_data gu1 gu2 gu3 hgu
        rw [hguA] at hguB
        simp only [Except.ok.injEq, Prod.mk.injEq] at hguB
        obtain ⟨hg1, hg2, hg3⟩ := hguB
        subst hg1
        subst hg2
        subst hg3
        have htepsA := process_teps_idem st0.teps gu2 data.event_data evD ot3 gu3 gr2
          teps2v hteps2
        rw [hTeps] at hteps2B
        rw [htepsA] at hteps2B
        simp only [Except.ok.injEq] at hteps2B
        subst hteps2B
        rw [← hres]
        unfold table_pks
        simp only []
        rw [hVen, hGT, hGames, hQm, hEvents, hTeams, hTNames, hTeps]
        rw [map_map_eq (fun w => if w.pk = (_create_or_update_venue st0.venues url data.venue_data.name now).2 then { w with lastScrapedAt := now } else w)
          (fun x => x.pk) (fun w => by by_cases hw : w.pk = (_create_or_update_venue st0.venues url data.venue_data.name now).2 <;> simp [hw]) (_create_or_update_venue st0.venues url data.venue_data.name now).1]

/-- Witness for C1: re-reconciling `page_a` over the store its first
reconcile produced inserts no rows in any table. -/
theorem push_to_db_idempotent_witness :
    table_pks (run_push st_a1 "u" false page_a (some 99) 3 5) = table_pks st_a1 :=
  push_to_db_idempotent empty_db "u" false page_a (some 99) 3 5 st_a1 true none none rfl
